import Mathlib

/-!
Verification development for the PatternFlow repository (four Python training
scripts: a StyleGAN trainer, a VQ-VAE script, a 3D U-Net model, and an
Improved U-Net model).  The definitions below are shallow embeddings of the
relevant source fragments; each is annotated with the file and line numbers
it is translated from.
-/

namespace PatternFlow

/-! ## RandomWeightedAverage (src/recognition/45471861_StyleGAN/train.py, lines 20-32)

The layer draws `alpha = tf.random.normal((batch_size, 1, 1, 1), 0, 1)` and
returns `real + alpha * (fake - real)` (lines 30-32), broadcasting the
per-sample scalar `alpha` over the pixels of each sample.  We embed the
computation per component, with the random draw `alpha` made an explicit
parameter, and model the distribution the code draws from by its support:
`tf.random.normal` with mean 0 and stddev 1 is a Gaussian, whose support is
the whole real line. -/

/-- Per-component value computed by `RandomWeightedAverage.call`
(train.py lines 30-32): `diff = fake - real; return real + alpha * diff`. -/
def rwa_call (alpha real fake : ℚ) : ℚ :=
  real + alpha * (fake - real)

/-- Support of the distribution the code draws `alpha` from
(train.py line 30: `tf.random.normal((self.batch_size, 1, 1, 1), 0, 1)`).
A Gaussian with mean 0 and standard deviation 1 assigns positive density to
every real number, so every value is a possible draw. -/
def tf_random_normal_support (_x : ℚ) : Prop := True

instance (x : ℚ) : Decidable (tf_random_normal_support x) :=
  .isTrue trivial

/-- A point lies (weakly) between two endpoints. -/
def betweenQ (lo hi x : ℚ) : Prop :=
  (lo ≤ x ∧ x ≤ hi) ∨ (hi ≤ x ∧ x ≤ lo)

instance (lo hi x : ℚ) : Decidable (betweenQ lo hi x) := by
  unfold betweenQ; infer_instance

/-! ## UNet3D shape semantics (src/recognition/45979189unet3d/model.py)

We embed the shape behaviour of the PyTorch layers used by `UNet3D.forward`
(lines 80-95).  A tensor is represented by its shape `(n, c, d, h, w)`;
each layer either produces the output shape or fails (`none`) exactly when
PyTorch would raise (channel mismatch at a convolution, spatial extent
smaller than the kernel, concatenation of tensors whose non-channel
dimensions disagree).  `ReLU` preserves shapes and is omitted. -/

structure TensorShape where
  n : ℕ
  c : ℕ
  d : ℕ
  h : ℕ
  w : ℕ
deriving DecidableEq

/-- Shape semantics of `nn.Conv3d(inC, outC, kernel_size=k, stride=1, padding=p)`:
requires the input channel count to match and each padded spatial extent to be
at least the kernel; each spatial output extent is `(x + 2*p - k) / 1 + 1`. -/
def conv3d (inC outC k p : ℕ) (x : TensorShape) : Option TensorShape :=
  if x.c = inC ∧ k ≤ x.d + 2 * p ∧ k ≤ x.h + 2 * p ∧ k ≤ x.w + 2 * p then
    some ⟨x.n, outC, x.d + 2 * p - k + 1, x.h + 2 * p - k + 1, x.w + 2 * p - k + 1⟩
  else none

/-- Shape semantics of `nn.MaxPool3d(kernel_size=k)` (stride defaults to `k`,
padding 0): each spatial output extent is `(x - k) / k + 1`. -/
def maxPool3d (k : ℕ) (x : TensorShape) : Option TensorShape :=
  if 1 ≤ k ∧ k ≤ x.d ∧ k ≤ x.h ∧ k ≤ x.w then
    some ⟨x.n, x.c, (x.d - k) / k + 1, (x.h - k) / k + 1, (x.w - k) / k + 1⟩
  else none

/-- Shape semantics of `nn.ConvTranspose3d(inC, outC, kernel_size=k, stride=s)`
(padding 0): each spatial output extent is `(x - 1) * s + k`. -/
def convTranspose3d (inC outC k s : ℕ) (x : TensorShape) : Option TensorShape :=
  if x.c = inC ∧ 1 ≤ x.d ∧ 1 ≤ x.h ∧ 1 ≤ x.w then
    some ⟨x.n, outC, (x.d - 1) * s + k, (x.h - 1) * s + k, (x.w - 1) * s + k⟩
  else none

/-- Shape semantics of `torch.cat((a, b), dim=1)` (model.py line 26):
all dimensions but the channel dimension must agree; channels add. -/
def catChannels (a b : TensorShape) : Option TensorShape :=
  if a.n = b.n ∧ a.d = b.d ∧ a.h = b.h ∧ a.w = b.w then
    some ⟨a.n, a.c + b.c, a.d, a.h, a.w⟩
  else none

/-- Encoder stage `layerN` (model.py lines 36-64): `Conv3d(inC, outC, 3, 1, 1)`,
`ReLU`, `Conv3d(outC, outC, 3, 1, 1)`, `MaxPool3d(2)`. -/
def layerBlock (inC outC : ℕ) (x : TensorShape) : Option TensorShape :=
  (conv3d inC outC 3 1 x).bind fun y =>
    (conv3d outC outC 3 1 y).bind fun z => maxPool3d 2 z

/-- `Decoder.forward` (model.py lines 16-28): `up = ConvTranspose3d(inC, outC, 2, 2)`
applied to `x1`, concatenation with the skip tensor `x2` along channels, then
`Conv3d(midC, outC, 3, padding=1)` followed by `ReLU`. -/
def decoderForward (inC midC outC : ℕ) (x1 x2 : TensorShape) : Option TensorShape :=
  (convTranspose3d inC outC 2 2 x1).bind fun u =>
    (catChannels u x2).bind fun cc => conv3d midC outC 3 1 cc

/-- `decode0` (model.py lines 70-76): `ConvTranspose3d(32, 32, 2, 2)`,
`Conv3d(32, 16, 3, padding=1)`, `ReLU`, `Conv3d(16, 16, 3, padding=1)`, `ReLU`. -/
def decode0 (x : TensorShape) : Option TensorShape :=
  (convTranspose3d 32 32 2 2 x).bind fun y =>
    (conv3d 32 16 3 1 y).bind fun z => conv3d 16 16 3 1 z

/-- `UNet3D.forward` (model.py lines 80-95), composed from the stages declared
in `UNet3D.__init__` (lines 34-77): five encoder blocks, four `Decoder` stages
with skip connections, `decode0`, and the final `Conv3d(16, 6, 1)`. -/
def unet3dForward (input : TensorShape) : Option TensorShape :=
  (layerBlock 1 16 input).bind fun e1 =>
  (layerBlock 16 32 e1).bind fun e2 =>
  (layerBlock 32 64 e2).bind fun e3 =>
  (layerBlock 64 128 e3).bind fun e4 =>
  (layerBlock 128 256 e4).bind fun f =>
  (decoderForward 256 (128 + 128) 128 f e4).bind fun d4 =>
  (decoderForward 128 (64 + 64) 64 d4 e3).bind fun d3 =>
  (decoderForward 64 (32 + 32) 32 d3 e2).bind fun d2 =>
  (decoderForward 32 (32 + 16) 32 d2 e1).bind fun d1 =>
  (decode0 d1).bind fun d0 =>
  conv3d 16 6 1 0 d0

/-! ## Module-level execution structure of the four scripts

`TopAction` classifies what each top-level statement of a source file does
when the file is executed as a script: `import`, `class` and `def` statements
only bind names; the remaining statements run framework code.  Each list
below transcribes one source file in order, with source lines noted. -/

inductive TopAction
  | importModule (m : String)
  | defineClass (c : String)
  | defineFunction (f : String)
  | setGlobal (g : String)
  | buildModel
  | loadDataset
  | runTrainingLoop
deriving DecidableEq

open TopAction in
/-- Top-level statements of src/recognition/45471861_StyleGAN/train.py:
imports (lines 5-14), the `__author__`/`__email__` assignments (lines 16-17),
and two class definitions (lines 20, 35).  Nothing else executes at import. -/
def styleganTrainTop : List TopAction :=
  [importModule "os.path", importModule "tensorflow", importModule "time",
   importModule "models", importModule "matplotlib.pyplot",
   importModule "neptune.new", importModule "datetime",
   importModule "tensorflow.keras", importModule "tensorflow.keras.utils",
   setGlobal "author", setGlobal "email",
   defineClass "RandomWeightedAverage", defineClass "Trainer"]

open TopAction in
/-- Top-level statements of src/recognition/45979189unet3d/model.py:
imports (lines 1-11) and two class definitions (lines 16, 33). -/
def unet3dModelTop : List TopAction :=
  [importModule "os", importModule "numpy", importModule "copy",
   importModule "matplotlib.pyplot", importModule "torch",
   importModule "torch.nn", importModule "torch.nn.functional",
   importModule "torchvision", importModule "torch.utils.data",
   importModule "torch.utils.data",
   defineClass "Decoder", defineClass "UNet3D"]

open TopAction in
/-- Top-level statements of src/recognition/ISIC-ImprovedUnet-44961374/model.py:
imports (lines 6-10), global constants (lines 14-20), four module-builder
function definitions and `create_model` (lines 23-97), and the call
`create_model()` at line 98, which constructs an input layer, convolution
layers and a context module (model-building code), but loads no data and
trains nothing. -/
def isicModelTop : List TopAction :=
  [importModule "tensorflow", importModule "tensorflow.keras.layers",
   importModule "tensorflow_addons.layers", importModule "tensorflow.keras.layers",
   setGlobal "P_DROP", setGlobal "NUM_STRIDES", setGlobal "LEAKY_RELU_ALPHA",
   setGlobal "IMAGE_ROWS", setGlobal "IMAGE_COLS", setGlobal "IMAGE_CHANNELS",
   setGlobal "KERNEL_SIZE",
   defineFunction "create_conv2d", defineFunction "context_module",
   defineFunction "upsampling_module", defineFunction "localization_module",
   defineFunction "create_model",
   buildModel]

open TopAction in
/-- Top-level statements of src/recognition/45678044/vqvae.py: imports
(lines 1-8), device selection (line 10), three `preload_imgs` dataset loads
(lines 31-33), hyperparameter constants (lines 35-39), three `DataLoader`
wrappers (lines 41-48), construction of the `VQVAE` model (line 50), the
optimizer (line 51), and the call to `train` (line 52). -/
def vqvaeTop : List TopAction :=
  [importModule "models", importModule "helper", importModule "torch",
   importModule "torch.nn", importModule "torchvision",
   importModule "torchvision.datasets", importModule "numpy",
   importModule "matplotlib.pyplot",
   setGlobal "device",
   loadDataset, loadDataset, loadDataset,
   setGlobal "EPOCH_SIZE", setGlobal "BATCH_SIZE", setGlobal "LR",
   setGlobal "K", setGlobal "D",
   setGlobal "train_loader", setGlobal "valid_loader", setGlobal "test_loader",
   buildModel, setGlobal "optim",
   runTrainingLoop]

/-- A file is a standalone training script in the sense of the spec when
executing it builds a model, loads a dataset, and runs a training loop. -/
def isTrainingScript (l : List TopAction) : Prop :=
  TopAction.buildModel ∈ l ∧ TopAction.loadDataset ∈ l ∧
    TopAction.runTrainingLoop ∈ l

instance (l : List TopAction) : Decidable (isTrainingScript l) := by
  unfold isTrainingScript; infer_instance

/-! ## Statement skeletons of the four files

`Stmt` records the compound-statement structure of the Python sources at the
granularity needed to decide whether any exception is ever caught: `simple`
stands for any simple statement (assignment, expression, `return`, `import`),
and the compound constructors keep their nested bodies.  A `tryStmt` node is
the only construct that can catch an exception. -/

inductive Stmt
  | simple
  | ifStmt (thn els : List Stmt)
  | forStmt (body : List Stmt)
  | withStmt (body : List Stmt)
  | tryStmt (body handlers : List Stmt)
  | defFun (body : List Stmt)
  | defClass (body : List Stmt)

mutual

def containsTry : Stmt → Bool
  | .simple => false
  | .ifStmt t e => containsTryList t || containsTryList e
  | .forStmt b => containsTryList b
  | .withStmt b => containsTryList b
  | .tryStmt _ _ => true
  | .defFun b => containsTryList b
  | .defClass b => containsTryList b

def containsTryList : List Stmt → Bool
  | [] => false
  | s :: rest => containsTry s || containsTryList rest

end

open Stmt in
/-- Statement skeleton of src/recognition/45471861_StyleGAN/train.py.
Lines 5-17: imports and module constants; lines 20-32 the
`RandomWeightedAverage` class (`__init__`, `call`); lines 35-232 the
`Trainer` class with `__init__` (39-96, with the `channels` branch at 65-68
and the neptune branch at 77-95 containing a `with open(...)` block),
`_create_output_folder` (97-102), `load_data` (104-113), `_train_g`
(115-126), `_train_d` (128-147), `_show_images` (149-170), and `train`
(172-232) with its epoch loop, batch loop and checkpoint branch. -/
def styleganTrainStmts : List Stmt :=
  List.replicate 11 simple ++
  [defClass
     [defFun [simple, simple],
      defFun [simple, simple, simple]],
   defClass
     [defFun
        (List.replicate 18 simple ++
         [ifStmt [simple] [simple], simple, simple, simple, simple,
          ifStmt (withStmt [simple] :: simple :: List.replicate 9 simple) []]),
      defFun [simple, simple, simple, simple],
      defFun [simple, simple],
      defFun [simple, withStmt [simple, simple, simple], simple, simple, simple],
      defFun [withStmt (List.replicate 8 simple), simple, simple, simple],
      defFun [simple, simple, simple,
              forStmt [simple, ifStmt [simple] [simple], simple],
              ifStmt [simple, simple] [], simple, simple],
      defFun [simple, simple, simple, simple, simple,
              forStmt [simple, simple,
                       forStmt [simple, simple, simple,
                                ifStmt [simple, simple,
                                        ifStmt [simple, simple] [],
                                        simple, simple, simple] [],
                                simple,
                                ifStmt [simple, ifStmt [simple] []] []],
                       ifStmt [simple, simple, simple] []],
              simple, simple, simple, simple, simple]]]

open Stmt in
/-- Statement skeleton of src/recognition/45979189unet3d/model.py: imports
(lines 1-11), the `Decoder` class (16-28: `__init__`, `forward`), and the
`UNet3D` class (33-95: `__init__`, `forward`). -/
def unet3dModelStmts : List Stmt :=
  List.replicate 10 simple ++
  [defClass
     [defFun [simple, simple, simple],
      defFun [simple, simple, simple, simple]],
   defClass
     [defFun (List.replicate 12 simple),
      defFun (List.replicate 12 simple)]]

open Stmt in
/-- Statement skeleton of src/recognition/ISIC-ImprovedUnet-44961374/model.py:
imports (6-10), seven constants (14-20), the module builders `create_conv2d`
(23-36), `context_module` (39-58), `upsampling_module` (60-73) and
`localization_module` (75-88), `create_model` (90-97), and the top-level
call (98). -/
def isicModelStmts : List Stmt :=
  List.replicate 4 simple ++ List.replicate 7 simple ++
  [defFun [simple, simple],
   defFun [simple, simple, simple, simple, simple, simple],
   defFun [simple, simple, simple],
   defFun [simple, simple, simple],
   defFun [simple, simple, simple],
   simple]

open Stmt in
/-- Statement skeleton of src/recognition/45678044/vqvae.py: imports (1-8)
and fifteen top-level simple statements (10-52): device selection, three
dataset loads, five constants, three loaders, model, optimizer, training
call. -/
def vqvaeStmts : List Stmt :=
  List.replicate 8 simple ++ List.replicate 15 simple

/-- Attributes assigned on `self` anywhere in the `Trainer` class
(train.py): `__init__` assigns `image_res`, `channels`, `rgb`, `latent_dim`,
`batch`, `epochs`, `checkpoint`, `lr`, `beta_1`, `n_critics`, `gp_weight`,
`num_of_validation_images`, `output_dir` (lines 43-55), `generator` and
`discriminator` (58, 60), `dataset` (64, also line 113 in `load_data`),
`validation_latent` (72), `neptune` and `run` (75-76, 81).  No other method
assigns a `self` attribute. -/
def trainerSelfAssignedAttrs : List String :=
  ["image_res", "channels", "rgb", "latent_dim", "batch", "epochs",
   "checkpoint", "lr", "beta_1", "n_critics", "gp_weight",
   "num_of_validation_images", "output_dir", "generator", "discriminator",
   "dataset", "validation_latent", "neptune", "run"]

/-! ## Trace semantics of `Trainer.train` (train.py, lines 172-232)

The loop is embedded as a step function producing the list of observable
effects it performs, together with either the final loop state or the Python
exception that aborted it.  Quantities the loop merely consumes from the
framework (the scalar `d_loss` returned by `_train_d` at line 194 and the
`g_loss` returned by `_train_g` at line 199, both depending on data and on
random draws) are supplied by oracles indexed by the global iteration
counter `iter`; the Python attribute environment of the `Trainer` object is
the list of attribute names present on it, so that an attribute read either
succeeds or raises `AttributeError` exactly as in Python. -/

inductive PyErr
  | attributeError (attr : String)
  | zeroDivisionError
deriving DecidableEq

inductive Eff
  | trainD (iter : ℕ) (loss : ℚ)
  | trainG (iter : ℕ) (gLoss dAvg : ℚ)
  | logG (v : ℚ)
  | logD (v : ℚ)
  | showFig (epoch : ℕ)
  | saveFig (epoch : ℕ) (path : String)
  | uploadFig
  | printLosses (epoch : ℕ) (d g : ℚ)
  | saveModel (path : String)
deriving DecidableEq

structure TrainCfg where
  epochs : ℕ
  batches : ℕ
  nCritics : ℕ
  checkpoint : ℕ
  outputDir : String
  neptune : Bool
  attrs : List String
  dLoss : ℕ → ℚ
  gLoss : ℕ → ℚ

structure TState where
  iter : ℕ
  buff : List ℚ
  lastD : ℚ
  lastG : ℚ
deriving DecidableEq

/-- Python `%`: raises `ZeroDivisionError` on a zero modulus. -/
def pymod (a b : ℕ) : Except PyErr ℕ :=
  if b = 0 then .error .zeroDivisionError else .ok (a % b)

/-- `os.path.join` for a nonempty head and a relative tail. -/
def ospJoin (a b : String) : String := a ++ "/" ++ b

/-- Path written by `plt.savefig` in `_show_images` (train.py line 165):
`os.path.join(self.output_dir, 'image_at_epoch_{}.png'.format(epoch))`. -/
def figPath (outputDir : String) (epoch : ℕ) : String :=
  ospJoin outputDir ("image_at_epoch_" ++ toString epoch ++ ".png")

/-- Attributes of `self` read by `Trainer._show_images`, in source order:
`self.generator` and `self.validation_latent` at line 150, then
`self.image_res`, `self.image_reso` and `self.channels` as the arguments of
`tf.reshape` at line 154, then `self.rgb` in the plotting loop at line 158,
and, when `save` is true, `self.output_dir` at line 165. -/
def showImagesReads (save : Bool) : List String :=
  ["generator", "validation_latent", "image_res", "image_reso", "channels",
   "rgb"] ++ (if save then ["output_dir"] else [])

/-- `Trainer._show_images` (train.py lines 149-170): the first attribute read
whose name is absent from the object raises `AttributeError`; otherwise, when
`save` is true the figure is written to `figPath` (lines 164-166) and shown,
and when `save` is false it is only shown (line 168). -/
def showImages (cfg : TrainCfg) (epoch : ℕ) (save : Bool) :
    Except PyErr (List Eff) :=
  match (showImagesReads save).find? (fun a => !(cfg.attrs.contains a)) with
  | some a => .error (.attributeError a)
  | none =>
    if save then
      .ok [.saveFig epoch (figPath cfg.outputDir epoch), .showFig epoch]
    else
      .ok [.showFig epoch]

/-- Body of the batch loop (train.py lines 190-219): normalize the batch
(192, value-level, absorbed into the `dLoss` oracle), train D and append its
loss to the buffer (194-195), on iterations with `(iter + 1) % n_critics == 0`
train G, average the buffer, optionally log to neptune, reset the buffer and
retain the averages (198-211), increment `iter` (213), and every 100
iterations call `_show_images(0, save=False)` and optionally upload the
figure (216-219). -/
def batchStep (cfg : TrainCfg) (st : TState) : List Eff × Except PyErr TState :=
  let dl := cfg.dLoss st.iter
  let buff := st.buff ++ [dl]
  let effs := [Eff.trainD st.iter dl]
  match pymod (st.iter + 1) cfg.nCritics with
  | .error e => (effs, .error e)
  | .ok m =>
    let (st1, effs1) :=
      if m = 0 then
        let gl := cfg.gLoss st.iter
        let avg := buff.sum / (buff.length : ℚ)
        let logEffs := if cfg.neptune then [Eff.logG gl, Eff.logD avg] else []
        ({ st with buff := [], lastD := avg, lastG := gl },
         effs ++ [Eff.trainG st.iter gl avg] ++ logEffs)
      else ({ st with buff := buff }, effs)
    let st2 := { st1 with iter := st1.iter + 1 }
    match pymod st2.iter 100 with
    | .error e => (effs1, .error e)
    | .ok m2 =>
      if m2 = 0 then
        match showImages cfg 0 false with
        | .error e => (effs1, .error e)
        | .ok sEffs =>
          let upEffs := if cfg.neptune then [Eff.uploadFig] else []
          (effs1 ++ sEffs ++ upEffs, .ok st2)
      else (effs1, .ok st2)

/-- The batch loop (train.py line 190) over the `k` batches the dataset
yields in one epoch. -/
def batchLoop (cfg : TrainCfg) (st : TState) : ℕ → List Eff × Except PyErr TState
  | 0 => ([], .ok st)
  | k + 1 =>
    let (effs, r) := batchStep cfg st
    match r with
    | .error e => (effs, .error e)
    | .ok st' =>
      let (effs', r') := batchLoop cfg st' k
      (effs ++ effs', r')

/-- Fade-in ratio (train.py line 187): `epoch / float(self.epochs - 1)`,
raising `ZeroDivisionError` when `epochs - 1 == 0`. -/
def fadeIn (epoch epochs : ℕ) : Except PyErr ℚ :=
  if (epochs : ℤ) - 1 = 0 then .error .zeroDivisionError
  else .ok ((epoch : ℚ) / ((epochs : ℚ) - 1))

/-- One epoch of `Trainer.train` (lines 184-225): compute `fade_in` (187),
run the batch loop (190-219), and on epochs with
`epoch % self.checkpoint == 0` call `_show_images(epoch, save=True)` and
print the timing and the retained losses (222-225). -/
def epochStep (cfg : TrainCfg) (epoch : ℕ) (st : TState) :
    List Eff × Except PyErr TState :=
  match fadeIn epoch cfg.epochs with
  | .error e => ([], .error e)
  | .ok _ =>
    let (effs, r) := batchLoop cfg st cfg.batches
    match r with
    | .error e => (effs, .error e)
    | .ok st' =>
      match pymod epoch cfg.checkpoint with
      | .error e => (effs, .error e)
      | .ok m =>
        if m = 0 then
          match showImages cfg epoch true with
          | .error e => (effs, .error e)
          | .ok sEffs =>
            (effs ++ sEffs ++ [Eff.printLosses epoch st'.lastD st'.lastG], .ok st')
        else (effs, .ok st')

/-- The epoch loop (line 184), running epochs `epoch, epoch+1, ...` for `k`
iterations. -/
def epochLoop (cfg : TrainCfg) (epoch : ℕ) (st : TState) :
    ℕ → List Eff × Except PyErr TState
  | 0 => ([], .ok st)
  | k + 1 =>
    let (effs, r) := epochStep cfg epoch st
    match r with
    | .error e => (effs, .error e)
    | .ok st' =>
      let (effs', r') := epochLoop cfg (epoch + 1) st' k
      (effs ++ effs', r')

/-- `Trainer.train` (lines 172-232): initialize `iter = 0`, an empty loss
buffer and zero retained losses (176-181), run the epoch loop, and finally
save the generator and discriminator models under
`<output_dir>/Model/G` and `<output_dir>/Model/D` (228-232). -/
def trainRun (cfg : TrainCfg) : List Eff × Except PyErr TState :=
  let st0 : TState := ⟨0, [], 0, 0⟩
  let (effs, r) := epochLoop cfg 0 st0 cfg.epochs
  match r with
  | .error e => (effs, .error e)
  | .ok st =>
    let folder := ospJoin cfg.outputDir "Model"
    (effs ++ [Eff.saveModel (ospJoin folder "G"), Eff.saveModel (ospJoin folder "D")],
     .ok st)

/-- Iterations at which a `trainD` effect occurs in a trace. -/
def dIters (tr : List Eff) : List ℕ :=
  tr.filterMap fun e =>
    match e with
    | .trainD i _ => some i
    | _ => none

/-- Iterations at which a `trainG` effect occurs in a trace. -/
def gIters (tr : List Eff) : List ℕ :=
  tr.filterMap fun e =>
    match e with
    | .trainG i _ _ => some i
    | _ => none

/-! ## `Trainer.__init__` and the neptune credential (train.py, lines 39-96) -/

inductive InitEff
  | createOutputFolder
  | loadDataset (folder : String)
  | readFile (path : String)
  | neptuneInit
  | logParam (key : String)
deriving DecidableEq

/-- Effects performed by `Trainer.__init__` (train.py lines 39-96), in order:
creation of the run output folder (line 55 via `_create_output_folder`),
loading the dataset from `data_folder` (line 69 via `load_data`), and — only
inside the `if self.neptune:` branch (lines 77-95) — opening
`neptune_credential.txt` (line 78), initializing the neptune run (line 81),
and recording the nine hyperparameters (lines 87-95).  Model construction
(lines 58-61) touches no external resource and is omitted. -/
def trainerInitEffects (dataFolder : String) (useNeptune : Bool) : List InitEff :=
  [.createOutputFolder, .loadDataset dataFolder] ++
    (if useNeptune then
      [.readFile "neptune_credential.txt", .neptuneInit] ++
        (["Image resolution", "Epochs", "Batch size", "Latent dim",
          "G input resolution", "G initial filters", "D input filters",
          "D final resolution", "n_critics"].map .logParam)
     else [])

/-- Value of `self.run` at the end of `__init__`: set at line 76 to `None`
and reassigned to the neptune run object (modelled as `some ()`) at line 81
only when `use_neptune` is true. -/
def trainerInitRun (useNeptune : Bool) : Option Unit :=
  if useNeptune then some () else none

/-- Loop-state invariant of `Trainer.train`: between batches, the loss buffer
(line 195) holds exactly the per-batch discriminator losses recorded since
the most recent generator update (reset at line 209), which happened at the
last iteration congruent to `n_critics - 1`. -/
def BuffInv (cfg : TrainCfg) (st : TState) : Prop :=
  st.buff =
    (List.range' (st.iter - st.iter % cfg.nCritics) (st.iter % cfg.nCritics)).map
      cfg.dLoss

/-! ## Concrete configurations used to instantiate the theorems -/

/-- The attribute environment of a real `Trainer`, with the missing
`image_reso` attribute added, to exercise the loop past `_show_images`. -/
def attrsPatched : List String := trainerSelfAssignedAttrs ++ ["image_reso"]

def cfgC3 : TrainCfg :=
  ⟨3, 5, 2, 1, "out", false, attrsPatched, fun i => (i : ℚ), fun i => (i : ℚ) + 7⟩

def cfgC4 : TrainCfg :=
  ⟨3, 2, 2, 2, "out", false, attrsPatched, fun _ => 1, fun _ => 2⟩

def cfgC5 : TrainCfg :=
  ⟨3, 5, 2, 1, "runs", false, attrsPatched, fun i => (i : ℚ) * 3, fun i => (i : ℚ)⟩

def cfgC8 : TrainCfg :=
  ⟨2, 1, 2, 1, "out", false, trainerSelfAssignedAttrs, fun _ => 0, fun _ => 0⟩

def cfgC9 : TrainCfg :=
  ⟨1, 4, 2, 1, "out", false, trainerSelfAssignedAttrs, fun _ => 0, fun _ => 0⟩

def cfgC4x : TrainCfg :=
  ⟨2, 1, 2, 1, "out", false, trainerSelfAssignedAttrs, fun _ => 0, fun _ => 0⟩

/-! ## Theorems -/

/-- C1: the sample on which the gradient penalty is computed is claimed to be
`real + alpha * (fake - real)` with a random weight `alpha` lying in `[0, 1]`,
hence a point between the real and the generated sample.  The formula part
matches the code, but the code draws `alpha` from `tf.random.normal(..., 0, 1)`
(train.py line 30), a Gaussian whose support is the whole line: the draw
`alpha = 2` is possible, and on it the returned point `rwa_call 2 0 1 = 2`
does not lie between the real sample `0` and the fake sample `1`.  This
contradicts the claim, the class docstring ("a (random) weighted average
between real and generated image samples") and the spec's description of the
gradient penalty as computed on interpolated real/fake samples. -/
theorem rwa_call_normal_alpha_not_interpolation :
    tf_random_normal_support 2 ∧
    rwa_call 2 0 1 = 2 ∧
    ¬ betweenQ 0 1 (rwa_call 2 0 1) := by
  refine ⟨trivial, by norm_num [rwa_call], by norm_num [betweenQ, rwa_call]⟩

/-- C2 counterexample: it is not the case that each of the four source files,
when executed, builds a model, loads a dataset and runs a training loop: the
StyleGAN train.py consists of imports, two module constants and two class
definitions and executes none of the three activities, the 3D U-Net model.py
likewise, and the Improved U-Net model.py loads no dataset and runs no
training loop. -/
theorem not_every_file_is_training_script :
    (¬ isTrainingScript styleganTrainTop) ∧
    (¬ isTrainingScript unet3dModelTop) ∧
    (¬ isTrainingScript isicModelTop) := by
  refine ⟨by decide, by decide, by decide⟩

/-- C2 amended: among the four files only vqvae.py is a standalone script
that builds a model, loads a dataset and runs a training loop when executed;
the StyleGAN train.py and the 3D U-Net model.py only bind imports and class
definitions; the Improved U-Net model.py executes model-building code
(the `create_model()` call at its last line) but loads no dataset and runs
no training loop. -/
theorem scripts_execution_classification :
    isTrainingScript vqvaeTop ∧
    ¬ isTrainingScript styleganTrainTop ∧
    ¬ isTrainingScript unet3dModelTop ∧
    ¬ isTrainingScript isicModelTop ∧
    TopAction.buildModel ∈ isicModelTop ∧
    TopAction.loadDataset ∉ isicModelTop ∧
    TopAction.runTrainingLoop ∉ isicModelTop ∧
    (∀ a ∈ styleganTrainTop, a ∉ [TopAction.buildModel, TopAction.loadDataset,
                                  TopAction.runTrainingLoop]) ∧
    (∀ a ∈ unet3dModelTop, a ∉ [TopAction.buildModel, TopAction.loadDataset,
                                TopAction.runTrainingLoop]) := by
  decide

/-- C6: `Trainer.__init__` opens the credential file
`neptune_credential.txt` if and only if `use_neptune` is true, and when
`use_neptune` is false no credential file is read and `self.run` is `None`
at the end of construction. -/
theorem init_reads_credential_iff_use_neptune :
    ∀ (dataFolder : String) (useNeptune : Bool),
      (InitEff.readFile "neptune_credential.txt" ∈
          trainerInitEffects dataFolder useNeptune ↔ useNeptune = true) ∧
      (useNeptune = false →
        (∀ p, InitEff.readFile p ∉ trainerInitEffects dataFolder useNeptune) ∧
        trainerInitRun useNeptune = none) := by
  intro dataFolder useNeptune
  cases useNeptune <;>
    simp [trainerInitEffects, trainerInitRun]

/-- Witness for C6, at `dataFolder = "data"` and both truth values of
`use_neptune`. -/
theorem init_reads_credential_iff_use_neptune_witness :
    ((InitEff.readFile "neptune_credential.txt" ∈
        trainerInitEffects "data" true ↔ true = true) ∧
      (true = false →
        (∀ p, InitEff.readFile p ∉ trainerInitEffects "data" true) ∧
        trainerInitRun true = none)) ∧
    ((InitEff.readFile "neptune_credential.txt" ∈
        trainerInitEffects "data" false ↔ false = true) ∧
      (false = false →
        (∀ p, InitEff.readFile p ∉ trainerInitEffects "data" false) ∧
        trainerInitRun false = none)) :=
  ⟨init_reads_credential_iff_use_neptune "data" true,
   init_reads_credential_iff_use_neptune "data" false⟩

/-- With `epochs == 1`, the first epoch's fade-in division raises before any
batch is processed, and `train` returns that error with an empty trace. -/
theorem trainRun_epochs_one (cfg : TrainCfg) (h : cfg.epochs = 1) :
    trainRun cfg = ([], .error .zeroDivisionError) := by
  have h1 : fadeIn 0 cfg.epochs = .error .zeroDivisionError := by
    rw [h]; rfl
  have h2 : epochStep cfg 0 ⟨0, [], 0, 0⟩ = ([], .error .zeroDivisionError) := by
    unfold epochStep
    rw [h1]
  have h3 : epochLoop cfg 0 ⟨0, [], 0, 0⟩ cfg.epochs =
      ([], .error .zeroDivisionError) := by
    rw [h]
    show epochLoop cfg 0 ⟨0, [], 0, 0⟩ (0 + 1) = _
    unfold epochLoop
    rw [h2]
  simp [trainRun, h3]

/-- C9: `Trainer.train` computes `fade_in = epoch / float(self.epochs - 1)`
at line 187.  For every configuration with `epochs == 1` this raises
`ZeroDivisionError` on the first epoch, before any batch is processed; for
`epochs >= 2` it is well defined, equal to `0` on the first epoch, `1` on
the last epoch, and strictly increasing in between. -/
theorem fade_in_zero_division_and_monotone :
    (∀ cfg : TrainCfg, cfg.epochs = 1 →
        trainRun cfg = ([], .error .zeroDivisionError)) ∧
    (∀ E : ℕ, 2 ≤ E →
        fadeIn 0 E = .ok 0 ∧
        fadeIn (E - 1) E = .ok 1 ∧
        (∀ e1 e2 : ℕ, e1 < e2 → e2 ≤ E - 1 →
          ∃ v1 v2 : ℚ, fadeIn e1 E = .ok v1 ∧ fadeIn e2 E = .ok v2 ∧ v1 < v2)) := by
  constructor
  · exact fun cfg h => trainRun_epochs_one cfg h
  · intro E hE
    have hne : ¬ ((E : ℤ) - 1 = 0) := by omega
    have hQpos : (0 : ℚ) < (E : ℚ) - 1 := by
      have : (2 : ℚ) ≤ (E : ℚ) := by exact_mod_cast hE
      linarith
    refine ⟨?_, ?_, ?_⟩
    · simp [fadeIn, hne]
    · have hcast : ((E - 1 : ℕ) : ℚ) = (E : ℚ) - 1 := by
        have : 1 ≤ E := by omega
        push_cast [this]
        ring
      simp only [fadeIn, if_neg hne, hcast]
      rw [div_self (ne_of_gt hQpos)]
    · intro e1 e2 h12 h2E
      refine ⟨(e1 : ℚ) / ((E : ℚ) - 1), (e2 : ℚ) / ((E : ℚ) - 1),
              by simp [fadeIn, hne], by simp [fadeIn, hne], ?_⟩
      rw [div_lt_div_iff_of_pos_right hQpos]
      exact_mod_cast h12

/-- Witness for C9: a one-epoch run aborts with `ZeroDivisionError`, and with
three epochs the fade-in ratio takes the values 0, 1/2, 1. -/
theorem fade_in_zero_division_and_monotone_witness :
    (cfgC9.epochs = 1 ∧ trainRun cfgC9 = ([], .error .zeroDivisionError)) ∧
    (2 ≤ 3 ∧
      (fadeIn 0 3 = .ok 0 ∧ fadeIn (3 - 1) 3 = .ok 1 ∧
        (∀ e1 e2 : ℕ, e1 < e2 → e2 ≤ 3 - 1 →
          ∃ v1 v2 : ℚ, fadeIn e1 3 = .ok v1 ∧ fadeIn e2 3 = .ok v2 ∧ v1 < v2))) :=
  ⟨⟨rfl, fade_in_zero_division_and_monotone.1 cfgC9 rfl⟩,
   ⟨by norm_num, fade_in_zero_division_and_monotone.2 3 (by norm_num)⟩⟩

theorem conv3d_k3_eval (inC outC n d h w : ℕ)
    (hd : 1 ≤ d) (hh : 1 ≤ h) (hw : 1 ≤ w) :
    conv3d inC outC 3 1 ⟨n, inC, d, h, w⟩ = some ⟨n, outC, d, h, w⟩ := by
  unfold conv3d
  dsimp only
  rw [if_pos ⟨rfl, by omega, by omega, by omega⟩]
  simp only [Option.some.injEq, TensorShape.mk.injEq, true_and]
  omega

theorem conv3d_k1_eval (inC outC n d h w : ℕ)
    (hd : 1 ≤ d) (hh : 1 ≤ h) (hw : 1 ≤ w) :
    conv3d inC outC 1 0 ⟨n, inC, d, h, w⟩ = some ⟨n, outC, d, h, w⟩ := by
  unfold conv3d
  dsimp only
  rw [if_pos ⟨rfl, by omega, by omega, by omega⟩]
  simp only [Option.some.injEq, TensorShape.mk.injEq, true_and]
  omega

theorem maxPool3d_k2_eval (n c d h w d' h' w' : ℕ)
    (hd : d = 2 * d') (hh : h = 2 * h') (hw : w = 2 * w')
    (hd1 : 1 ≤ d') (hh1 : 1 ≤ h') (hw1 : 1 ≤ w') :
    maxPool3d 2 ⟨n, c, d, h, w⟩ = some ⟨n, c, d', h', w'⟩ := by
  unfold maxPool3d
  dsimp only
  rw [if_pos ⟨by omega, by omega, by omega, by omega⟩]
  simp only [Option.some.injEq, TensorShape.mk.injEq, true_and]
  omega

theorem convTranspose3d_k2s2_eval (inC outC n d h w : ℕ)
    (hd : 1 ≤ d) (hh : 1 ≤ h) (hw : 1 ≤ w) :
    convTranspose3d inC outC 2 2 ⟨n, inC, d, h, w⟩ =
      some ⟨n, outC, 2 * d, 2 * h, 2 * w⟩ := by
  unfold convTranspose3d
  dsimp only
  rw [if_pos ⟨rfl, hd, hh, hw⟩]
  simp only [Option.some.injEq, TensorShape.mk.injEq, true_and]
  omega

theorem catChannels_eval (n c1 c2 d h w : ℕ) :
    catChannels ⟨n, c1, d, h, w⟩ ⟨n, c2, d, h, w⟩ = some ⟨n, c1 + c2, d, h, w⟩ := by
  unfold catChannels
  dsimp only
  rw [if_pos ⟨rfl, rfl, rfl, rfl⟩]

theorem layerBlock_eval (inC outC n d h w d' h' w' : ℕ)
    (hd : d = 2 * d') (hh : h = 2 * h') (hw : w = 2 * w')
    (hd1 : 1 ≤ d') (hh1 : 1 ≤ h') (hw1 : 1 ≤ w') :
    layerBlock inC outC ⟨n, inC, d, h, w⟩ = some ⟨n, outC, d', h', w'⟩ := by
  unfold layerBlock
  rw [conv3d_k3_eval inC outC n d h w (by omega) (by omega) (by omega)]
  simp only [Option.some_bind]
  rw [conv3d_k3_eval outC outC n d h w (by omega) (by omega) (by omega)]
  simp only [Option.some_bind]
  exact maxPool3d_k2_eval n outC d h w d' h' w' hd hh hw hd1 hh1 hw1

theorem decoderForward_eval (inC outC skipC n d h w : ℕ)
    (hd : 1 ≤ d) (hh : 1 ≤ h) (hw : 1 ≤ w) :
    decoderForward inC (outC + skipC) outC ⟨n, inC, d, h, w⟩
        ⟨n, skipC, 2 * d, 2 * h, 2 * w⟩ =
      some ⟨n, outC, 2 * d, 2 * h, 2 * w⟩ := by
  unfold decoderForward
  rw [convTranspose3d_k2s2_eval inC outC n d h w hd hh hw]
  simp only [Option.some_bind]
  rw [catChannels_eval n outC skipC (2 * d) (2 * h) (2 * w)]
  simp only [Option.some_bind]
  exact conv3d_k3_eval (outC + skipC) outC n (2 * d) (2 * h) (2 * w)
    (by omega) (by omega) (by omega)

theorem decode0_eval (n d h w : ℕ) (hd : 1 ≤ d) (hh : 1 ≤ h) (hw : 1 ≤ w) :
    decode0 ⟨n, 32, d, h, w⟩ = some ⟨n, 16, 2 * d, 2 * h, 2 * w⟩ := by
  unfold decode0
  rw [convTranspose3d_k2s2_eval 32 32 n d h w hd hh hw]
  simp only [Option.some_bind]
  rw [conv3d_k3_eval 32 16 n (2 * d) (2 * h) (2 * w) (by omega) (by omega) (by omega)]
  simp only [Option.some_bind]
  exact conv3d_k3_eval 16 16 n (2 * d) (2 * h) (2 * w) (by omega) (by omega) (by omega)

/-- C10: `UNet3D.forward` maps every input of shape `(N, 1, D, H, W)` with
`D`, `H`, `W` positive and divisible by 32 to an output of shape
`(N, 6, D, H, W)`: the five factor-2 max-pool reductions of the encoder are
exactly undone by the five stride-2 transposed convolutions of the decoder,
and at every skip connection the concatenated channel count equals the
`Decoder`'s `middle_channels` (256 = 128+128, 128 = 64+64, 64 = 32+32,
48 = 32+16), so every convolution's input channel check passes. -/
theorem unet3d_forward_shape (n D H W : ℕ)
    (hD : 32 ∣ D) (hH : 32 ∣ H) (hW : 32 ∣ W)
    (hD0 : 0 < D) (hH0 : 0 < H) (hW0 : 0 < W) :
    unet3dForward ⟨n, 1, D, H, W⟩ = some ⟨n, 6, D, H, W⟩ := by
  obtain ⟨a, rfl⟩ := hD
  obtain ⟨b, rfl⟩ := hH
  obtain ⟨c, rfl⟩ := hW
  have ha : 1 ≤ a := by omega
  have hb : 1 ≤ b := by omega
  have hc : 1 ≤ c := by omega
  unfold unet3dForward
  rw [layerBlock_eval 1 16 n (32 * a) (32 * b) (32 * c) (16 * a) (16 * b) (16 * c)
    (by ring) (by ring) (by ring) (by omega) (by omega) (by omega)]
  simp only [Option.some_bind]
  rw [layerBlock_eval 16 32 n (16 * a) (16 * b) (16 * c) (8 * a) (8 * b) (8 * c)
    (by ring) (by ring) (by ring) (by omega) (by omega) (by omega)]
  simp only [Option.some_bind]
  rw [layerBlock_eval 32 64 n (8 * a) (8 * b) (8 * c) (4 * a) (4 * b) (4 * c)
    (by ring) (by ring) (by ring) (by omega) (by omega) (by omega)]
  simp only [Option.some_bind]
  rw [layerBlock_eval 64 128 n (4 * a) (4 * b) (4 * c) (2 * a) (2 * b) (2 * c)
    (by ring) (by ring) (by ring) (by omega) (by omega) (by omega)]
  simp only [Option.some_bind]
  rw [layerBlock_eval 128 256 n (2 * a) (2 * b) (2 * c) a b c
    (by ring) (by ring) (by ring) (by omega) (by omega) (by omega)]
  simp only [Option.some_bind]
  rw [show (⟨n, 128, 2 * a, 2 * b, 2 * c⟩ : TensorShape) =
        ⟨n, 128, 2 * a, 2 * b, 2 * c⟩ from rfl,
      decoderForward_eval 256 128 128 n a b c (by omega) (by omega) (by omega)]
  simp only [Option.some_bind]
  rw [show (4 : ℕ) * a = 2 * (2 * a) from by ring,
      show (4 : ℕ) * b = 2 * (2 * b) from by ring,
      show (4 : ℕ) * c = 2 * (2 * c) from by ring,
      decoderForward_eval 128 64 64 n (2 * a) (2 * b) (2 * c)
        (by omega) (by omega) (by omega)]
  simp only [Option.some_bind]
  rw [show (8 : ℕ) * a = 2 * (2 * (2 * a)) from by ring,
      show (8 : ℕ) * b = 2 * (2 * (2 * b)) from by ring,
      show (8 : ℕ) * c = 2 * (2 * (2 * c)) from by ring,
      decoderForward_eval 64 32 32 n (2 * (2 * a)) (2 * (2 * b)) (2 * (2 * c))
        (by omega) (by omega) (by omega)]
  simp only [Option.some_bind]
  rw [show (16 : ℕ) * a = 2 * (2 * (2 * (2 * a))) from by ring,
      show (16 : ℕ) * b = 2 * (2 * (2 * (2 * b))) from by ring,
      show (16 : ℕ) * c = 2 * (2 * (2 * (2 * c))) from by ring,
      decoderForward_eval 32 32 16 n (2 * (2 * (2 * a))) (2 * (2 * (2 * b)))
        (2 * (2 * (2 * c))) (by omega) (by omega) (by omega)]
  simp only [Option.some_bind]
  rw [decode0_eval n (2 * (2 * (2 * (2 * a)))) (2 * (2 * (2 * (2 * b))))
    (2 * (2 * (2 * (2 * c)))) (by omega) (by omega) (by omega)]
  simp only [Option.some_bind]
  rw [conv3d_k1_eval 16 6 n (2 * (2 * (2 * (2 * (2 * a)))))
    (2 * (2 * (2 * (2 * (2 * b))))) (2 * (2 * (2 * (2 * (2 * c)))))
    (by omega) (by omega) (by omega)]
  simp only [Option.some.injEq, TensorShape.mk.injEq, true_and]
  refine ⟨by ring, by ring, by ring⟩

/-- Witness for C10, at input shape `(1, 1, 32, 64, 96)`. -/
theorem unet3d_forward_shape_witness :
    (32 ∣ 32 ∧ 32 ∣ 64 ∧ 32 ∣ 96 ∧ 0 < 32 ∧ 0 < 64 ∧ 0 < 96) ∧
    unet3dForward ⟨1, 1, 32, 64, 96⟩ = some ⟨1, 6, 32, 64, 96⟩ :=
  ⟨by norm_num,
   unet3d_forward_shape 1 32 64 96 (by norm_num) (by norm_num) (by norm_num)
     (by norm_num) (by norm_num) (by norm_num)⟩

theorem showImages_ok_cases (cfg : TrainCfg) (e : ℕ) (s : Bool) (l : List Eff)
    (h : showImages cfg e s = .ok l) :
    (s = true ∧ l = [.saveFig e (figPath cfg.outputDir e), .showFig e]) ∨
    (s = false ∧ l = [.showFig e]) := by
  unfold showImages at h
  rcases hf : (showImagesReads s).find? (fun a => !(cfg.attrs.contains a)) with _ | a
  · rw [hf] at h
    cases s
    · right
      refine ⟨rfl, ?_⟩
      simpa using h.symm
    · left
      refine ⟨rfl, ?_⟩
      simpa using h.symm
  · rw [hf] at h
    exact absurd h (by simp)

theorem showImages_ok_of_attrs (cfg : TrainCfg) (e : ℕ) (s : Bool)
    (hA : ∀ a ∈ showImagesReads s, a ∈ cfg.attrs) :
    ∃ l, showImages cfg e s = .ok l := by
  unfold showImages
  have hf : (showImagesReads s).find? (fun a => !(cfg.attrs.contains a)) = none := by
    rw [List.find?_eq_none]
    intro a ha
    simpa using hA a ha
  rw [hf]
  cases s
  · exact ⟨_, rfl⟩
  · exact ⟨_, rfl⟩

theorem showImages_err_reso (cfg : TrainCfg) (e : ℕ) (s : Bool)
    (hattrs : cfg.attrs = trainerSelfAssignedAttrs) :
    showImages cfg e s = .error (.attributeError "image_reso") := by
  unfold showImages
  rw [hattrs]
  rfl

theorem dIters_append (l1 l2 : List Eff) :
    dIters (l1 ++ l2) = dIters l1 ++ dIters l2 := by
  simp [dIters]

theorem gIters_append (l1 l2 : List Eff) :
    gIters (l1 ++ l2) = gIters l1 ++ gIters l2 := by
  simp [gIters]

/-- Complete case analysis of one batch-loop body, assuming only that
`n_critics` is positive (so that line 198's modulus does not raise). -/
theorem batchStep_cases (cfg : TrainCfg) (st : TState) (hn : 0 < cfg.nCritics) :
    ∃ gEffs postEffs : List Eff,
      (batchStep cfg st).1 =
        Eff.trainD st.iter (cfg.dLoss st.iter) :: (gEffs ++ postEffs) ∧
      dIters gEffs = [] ∧
      dIters postEffs = [] ∧
      gIters postEffs = [] ∧
      (∀ e p, Eff.saveFig e p ∉ gEffs ++ postEffs) ∧
      (∀ p, Eff.saveModel p ∉ gEffs ++ postEffs) ∧
      (if (st.iter + 1) % cfg.nCritics = 0
        then gIters gEffs = [st.iter]
        else gEffs = []) ∧
      (∀ i g a, Eff.trainG i g a ∈ gEffs →
        (st.iter + 1) % cfg.nCritics = 0 ∧ i = st.iter ∧
          a = (st.buff ++ [cfg.dLoss st.iter]).sum /
                (((st.buff ++ [cfg.dLoss st.iter]).length : ℕ) : ℚ)) ∧
      ((∃ st', (batchStep cfg st).2 = .ok st' ∧
          st'.iter = st.iter + 1 ∧
          (if (st.iter + 1) % cfg.nCritics = 0
            then st'.buff = [] ∧
              st'.lastD = (st.buff ++ [cfg.dLoss st.iter]).sum /
                (((st.buff ++ [cfg.dLoss st.iter]).length : ℕ) : ℚ) ∧
              st'.lastG = cfg.gLoss st.iter
            else st'.buff = st.buff ++ [cfg.dLoss st.iter] ∧
              st'.lastD = st.lastD ∧ st'.lastG = st.lastG)) ∨
        (∃ e, (batchStep cfg st).2 = .error e ∧
          showImages cfg 0 false = .error e ∧ (st.iter + 1) % 100 = 0)) := by
  have hn' : cfg.nCritics ≠ 0 := by omega
  have hp : pymod (st.iter + 1) cfg.nCritics =
      .ok ((st.iter + 1) % cfg.nCritics) := by
    unfold pymod
    rw [if_neg hn']
  have hp100 : pymod (st.iter + 1) 100 = .ok ((st.iter + 1) % 100) := by
    unfold pymod
    rw [if_neg (by omega)]
  unfold batchStep
  rw [hp]
  dsimp only
  set avg := (st.buff ++ [cfg.dLoss st.iter]).sum /
      (((st.buff ++ [cfg.dLoss st.iter]).length : ℕ) : ℚ) with havg
  by_cases hG : (st.iter + 1) % cfg.nCritics = 0
  · rw [if_pos hG]
    dsimp only
    rw [hp100]
    dsimp only
    by_cases h100 : (st.iter + 1) % 100 = 0
    · rw [if_pos h100]
      rcases hs : showImages cfg 0 false with err | l
      · refine ⟨[Eff.trainG st.iter (cfg.gLoss st.iter) avg] ++
            (if cfg.neptune then
              [Eff.logG (cfg.gLoss st.iter), Eff.logD avg] else []), [],
          ?_, ?_, ?_, ?_, ?_, ?_, ?_, ?_, ?_⟩
        · simp
        · cases hnep : cfg.neptune <;> simp [hnep, dIters]
        · simp [dIters]
        · simp [gIters]
        · cases hnep : cfg.neptune <;> simp [hnep]
        · cases hnep : cfg.neptune <;> simp [hnep]
        · rw [if_pos hG]
          cases hnep : cfg.neptune <;> simp [hnep, gIters]
        · intro i g a hmem
          cases hnep : cfg.neptune <;> rw [hnep] at hmem <;> simp at hmem <;>
            exact ⟨hG, hmem.1, hmem.2.2⟩
        · right
          exact ⟨err, rfl, rfl, h100⟩
      · rcases showImages_ok_cases cfg 0 false l hs with ⟨hfalse, _⟩ | ⟨_, hl⟩
        · exact absurd hfalse (by simp)
        · subst hl
          refine ⟨[Eff.trainG st.iter (cfg.gLoss st.iter) avg] ++
              (if cfg.neptune then
                [Eff.logG (cfg.gLoss st.iter), Eff.logD avg] else []),
            [Eff.showFig 0] ++ (if cfg.neptune then [Eff.uploadFig] else []),
            ?_, ?_, ?_, ?_, ?_, ?_, ?_, ?_, ?_⟩
          · simp
          · cases hnep : cfg.neptune <;> simp [hnep, dIters]
          · cases hnep : cfg.neptune <;> simp [hnep, dIters]
          · cases hnep : cfg.neptune <;> simp [hnep, gIters]
          · cases hnep : cfg.neptune <;> simp [hnep]
          · cases hnep : cfg.neptune <;> simp [hnep]
          · rw [if_pos hG]
            cases hnep : cfg.neptune <;> simp [hnep, gIters]
          · intro i g a hmem
            cases hnep : cfg.neptune <;> rw [hnep] at hmem <;> simp at hmem <;>
              exact ⟨hG, hmem.1, hmem.2.2⟩
          · left
            refine ⟨_, rfl, rfl, ?_⟩
            rw [if_pos hG]
            exact ⟨rfl, rfl, rfl⟩
    · rw [if_neg h100]
      refine ⟨[Eff.trainG st.iter (cfg.gLoss st.iter) avg] ++
          (if cfg.neptune then
            [Eff.logG (cfg.gLoss st.iter), Eff.logD avg] else []), [],
        ?_, ?_, ?_, ?_, ?_, ?_, ?_, ?_, ?_⟩
      · simp
      · cases hnep : cfg.neptune <;> simp [hnep, dIters]
      · simp [dIters]
      · simp [gIters]
      · cases hnep : cfg.neptune <;> simp [hnep]
      · cases hnep : cfg.neptune <;> simp [hnep]
      · rw [if_pos hG]
        cases hnep : cfg.neptune <;> simp [hnep, gIters]
      · intro i g a hmem
        cases hnep : cfg.neptune <;> rw [hnep] at hmem <;> simp at hmem <;>
          exact ⟨hG, hmem.1, hmem.2.2⟩
      · left
        refine ⟨_, rfl, rfl, ?_⟩
        rw [if_pos hG]
        exact ⟨rfl, rfl, rfl⟩
  · rw [if_neg hG]
    dsimp only
    rw [hp100]
    dsimp only
    by_cases h100 : (st.iter + 1) % 100 = 0
    · rw [if_pos h100]
      rcases hs : showImages cfg 0 false with err | l
      · refine ⟨[], [], by simp, rfl, rfl, rfl, by simp, by simp, ?_, ?_, ?_⟩
        · rw [if_neg hG]
        · intro i g a hmem
          simp at hmem
        · right
          exact ⟨err, rfl, rfl, h100⟩
      · rcases showImages_ok_cases cfg 0 false l hs with ⟨hfalse, _⟩ | ⟨_, hl⟩
        · exact absurd hfalse (by simp)
        · subst hl
          refine ⟨[], [Eff.showFig 0] ++
              (if cfg.neptune then [Eff.uploadFig] else []),
            ?_, rfl, ?_, ?_, ?_, ?_, ?_, ?_, ?_⟩
          · simp
          · cases hnep : cfg.neptune <;> simp [hnep, dIters]
          · cases hnep : cfg.neptune <;> simp [hnep, gIters]
          · cases hnep : cfg.neptune <;> simp [hnep]
          · cases hnep : cfg.neptune <;> simp [hnep]
          · rw [if_neg hG]
          · intro i g a hmem
            simp at hmem
          · left
            refine ⟨_, rfl, rfl, ?_⟩
            rw [if_neg hG]
            exact ⟨rfl, rfl, rfl⟩
    · rw [if_neg h100]
      refine ⟨[], [], by simp, rfl, rfl, rfl, by simp, by simp, ?_, ?_, ?_⟩
      · rw [if_neg hG]
      · intro i g a hmem
        simp at hmem
      · left
        refine ⟨_, rfl, rfl, ?_⟩
        rw [if_neg hG]
        exact ⟨rfl, rfl, rfl⟩

theorem mod_succ_eq_zero_decomp (i n : ℕ) (hn : 0 < n) (h : (i + 1) % n = 0) :
    i % n = n - 1 ∧ i - i % n = i + 1 - n := by
  rcases Nat.eq_or_lt_of_le hn with h1 | h2
  · have hn1 : n = 1 := h1.symm
    subst hn1
    simp [Nat.mod_one]
  · have h1n : 1 % n = 1 := Nat.mod_eq_of_lt h2
    have hstep : (i + 1) % n = (i % n + 1) % n := by
      rw [Nat.add_mod, h1n]
    have hlt : i % n < n := Nat.mod_lt _ hn
    have hle : i % n ≤ i := Nat.mod_le _ _
    by_cases hcase : i % n + 1 < n
    · rw [hstep, Nat.mod_eq_of_lt hcase] at h
      omega
    · have heq : i % n + 1 = n := by omega
      constructor
      · omega
      · omega

theorem mod_succ_ne_zero_decomp (i n : ℕ) (hn : 0 < n) (h : (i + 1) % n ≠ 0) :
    (i + 1) % n = i % n + 1 ∧ (i + 1) - (i + 1) % n = i - i % n := by
  have hn1 : n ≠ 1 := by
    rintro rfl
    exact h (Nat.mod_one _)
  have h1n : 1 % n = 1 := Nat.mod_eq_of_lt (by omega)
  have hstep : (i + 1) % n = (i % n + 1) % n := by
    rw [Nat.add_mod, h1n]
  have hlt : i % n < n := Nat.mod_lt _ hn
  by_cases hcase : i % n + 1 < n
  · have hred : (i % n + 1) % n = i % n + 1 := Nat.mod_eq_of_lt hcase
    rw [hstep, hred]
    omega
  · have heq : i % n + 1 = n := by omega
    rw [hstep, heq, Nat.mod_self] at h
    exact absurd rfl h

theorem buff_window (cfg : TrainCfg) (st : TState) (hn : 0 < cfg.nCritics)
    (hinv : BuffInv cfg st) (hG : (st.iter + 1) % cfg.nCritics = 0) :
    st.buff ++ [cfg.dLoss st.iter] =
      (List.range' (st.iter + 1 - cfg.nCritics) cfg.nCritics).map cfg.dLoss ∧
    (st.buff ++ [cfg.dLoss st.iter]).length = cfg.nCritics := by
  obtain ⟨hmod, hsub⟩ := mod_succ_eq_zero_decomp st.iter cfg.nCritics hn hG
  have hle : st.iter % cfg.nCritics ≤ st.iter := Nat.mod_le _ _
  unfold BuffInv at hinv
  rw [hinv, hmod]
  have hsub' : st.iter - (cfg.nCritics - 1) = st.iter + 1 - cfg.nCritics := by
    omega
  rw [hsub']
  constructor
  · have hconcat :
        List.range' (st.iter + 1 - cfg.nCritics) ((cfg.nCritics - 1) + 1) =
          List.range' (st.iter + 1 - cfg.nCritics) (cfg.nCritics - 1) ++
            [st.iter + 1 - cfg.nCritics + (cfg.nCritics - 1)] :=
      List.range'_1_concat _ _
    have hn' : (cfg.nCritics - 1) + 1 = cfg.nCritics := by omega
    have hlast : st.iter + 1 - cfg.nCritics + (cfg.nCritics - 1) = st.iter := by
      omega
    rw [hn', hlast] at hconcat
    rw [hconcat, List.map_append]
    rfl
  · simp
    omega

theorem mem_gIters (l : List Eff) (i : ℕ) (g a : ℚ)
    (h : Eff.trainG i g a ∈ l) : i ∈ gIters l := by
  simp only [gIters, List.mem_filterMap]
  exact ⟨_, h, rfl⟩

theorem gIters_nil_no_trainG (l : List Eff) (hl : gIters l = [])
    (i : ℕ) (g a : ℚ) : Eff.trainG i g a ∉ l := by
  intro h
  have := mem_gIters l i g a h
  rw [hl] at this
  simp at this

theorem batchLoop_succ_ok (cfg : TrainCfg) (st st1 : TState) (k : ℕ)
    (h : (batchStep cfg st).2 = .ok st1) :
    batchLoop cfg st (k + 1) =
      ((batchStep cfg st).1 ++ (batchLoop cfg st1 k).1,
        (batchLoop cfg st1 k).2) := by
  rcases hbs : batchStep cfg st with ⟨effs, r⟩
  rw [hbs] at h
  dsimp at h
  subst h
  rcases hbl : batchLoop cfg st1 k with ⟨tr, r'⟩
  unfold batchLoop
  rw [hbs]
  dsimp only
  rw [hbl]

theorem batchLoop_succ_err (cfg : TrainCfg) (st : TState) (e : PyErr) (k : ℕ)
    (h : (batchStep cfg st).2 = .error e) :
    batchLoop cfg st (k + 1) = ((batchStep cfg st).1, .error e) := by
  rcases hbs : batchStep cfg st with ⟨effs, r⟩
  rw [hbs] at h
  dsimp at h
  subst h
  unfold batchLoop
  rw [hbs]

theorem dIters_cons_trainD (i : ℕ) (q : ℚ) (l : List Eff) :
    dIters (Eff.trainD i q :: l) = i :: dIters l := rfl

theorem gIters_cons_trainD (i : ℕ) (q : ℚ) (l : List Eff) :
    gIters (Eff.trainD i q :: l) = gIters l := rfl

theorem batchLoop_trace (cfg : TrainCfg) (hn : 0 < cfg.nCritics) :
    ∀ (k : ℕ) (st : TState),
      ∃ m, m ≤ k ∧
        dIters (batchLoop cfg st k).1 = List.range' st.iter m ∧
        gIters (batchLoop cfg st k).1 =
          (List.range' st.iter m).filter
            (fun i => decide ((i + 1) % cfg.nCritics = 0)) ∧
        (∀ st', (batchLoop cfg st k).2 = .ok st' →
          m = k ∧ st'.iter = st.iter + k) := by
  intro k
  induction k with
  | zero =>
    intro st
    refine ⟨0, Nat.le_refl 0, rfl, rfl, ?_⟩
    intro st' h
    have h' : st = st' := by
      unfold batchLoop at h
      exact Except.ok.inj h
    subst h'
    exact ⟨rfl, rfl⟩
  | succ k ih =>
    intro st
    obtain ⟨gEffs, postEffs, htr, hdg, hdp, hgp, _, _, hgif, _, hres⟩ :=
      batchStep_cases cfg st hn
    have hdstep : dIters (batchStep cfg st).1 = [st.iter] := by
      rw [htr, dIters_cons_trainD, dIters_append, hdg, hdp]
      rfl
    have hgstep : gIters (batchStep cfg st).1 =
        (if (st.iter + 1) % cfg.nCritics = 0 then [st.iter] else []) := by
      rw [htr, gIters_cons_trainD, gIters_append, hgp]
      by_cases hG : (st.iter + 1) % cfg.nCritics = 0
      · rw [if_pos hG] at hgif ⊢
        rw [hgif]
        rfl
      · rw [if_neg hG] at hgif ⊢
        rw [hgif]
        rfl
    rcases hres with ⟨st1, hok, hiter, _⟩ | ⟨e, herr, _, _⟩
    · obtain ⟨m, hm, hd, hg, hok'⟩ := ih st1
      rw [batchLoop_succ_ok cfg st st1 k hok]
      refine ⟨m + 1, by omega, ?_, ?_, ?_⟩
      · dsimp only
        rw [dIters_append, hdstep, hd, hiter]
        rw [List.range'_succ]
        rfl
      · dsimp only
        rw [gIters_append, hgstep, hg, hiter]
        rw [List.range'_succ, List.filter_cons]
        by_cases hG : (st.iter + 1) % cfg.nCritics = 0
        · rw [if_pos hG, if_pos (by simp [hG])]
          rfl
        · rw [if_neg hG, if_neg (by simp [hG])]
          rfl
      · intro st' h
        dsimp only at h
        obtain ⟨hmk, hit⟩ := hok' st' h
        constructor
        · omega
        · rw [hit, hiter]
          omega
    · rw [batchLoop_succ_err cfg st e k herr]
      refine ⟨1, by omega, ?_, ?_, ?_⟩
      · dsimp only
        rw [hdstep]
        rfl
      · dsimp only
        rw [hgstep]
        rw [show List.range' st.iter 1 = [st.iter] from rfl, List.filter_cons]
        by_cases hG : (st.iter + 1) % cfg.nCritics = 0
        · rw [if_pos hG, if_pos (by simp [hG])]
          rfl
        · rw [if_neg hG, if_neg (by simp [hG])]
          rfl
      · intro st' h
        dsimp only at h
        exact absurd h (by simp)

theorem batchStep_window (cfg : TrainCfg) (st : TState) (hn : 0 < cfg.nCritics)
    (hinv : BuffInv cfg st) :
    (∀ i g a, Eff.trainG i g a ∈ (batchStep cfg st).1 →
      (i + 1) % cfg.nCritics = 0 ∧
      a = ((List.range' (i + 1 - cfg.nCritics) cfg.nCritics).map cfg.dLoss).sum /
            (cfg.nCritics : ℚ)) ∧
    (∀ st', (batchStep cfg st).2 = .ok st' → BuffInv cfg st') := by
  obtain ⟨gEffs, postEffs, htr, _, _, hgp, _, _, hgif, hwin, hres⟩ :=
    batchStep_cases cfg st hn
  constructor
  · intro i g a hmem
    rw [htr] at hmem
    simp only [List.mem_cons, List.mem_append] at hmem
    rcases hmem with habs | hmem | hmem
    · exact absurd habs (by simp)
    · obtain ⟨hG, hi, ha⟩ := hwin i g a hmem
      subst hi
      obtain ⟨hwl, hlen⟩ := buff_window cfg st hn hinv hG
      refine ⟨hG, ?_⟩
      rw [ha, hlen, hwl]
    · exact absurd hmem (gIters_nil_no_trainG postEffs hgp i g a)
  · intro st' hok
    rcases hres with ⟨st1, hok1, hiter, hifbuf⟩ | ⟨e, herr, _, _⟩
    · have hst : st1 = st' := by
        rw [hok1] at hok
        exact Except.ok.inj hok
      subst hst
      by_cases hG : (st.iter + 1) % cfg.nCritics = 0
      · rw [if_pos hG] at hifbuf
        obtain ⟨hbuf, _, _⟩ := hifbuf
        unfold BuffInv
        rw [hbuf, hiter, hG]
        rfl
      · rw [if_neg hG] at hifbuf
        obtain ⟨hbuf, _, _⟩ := hifbuf
        obtain ⟨hm1, hm2⟩ := mod_succ_ne_zero_decomp st.iter cfg.nCritics hn hG
        have hle : st.iter % cfg.nCritics ≤ st.iter := Nat.mod_le _ _
        unfold BuffInv
        rw [hbuf, hiter, hm2, hm1]
        unfold BuffInv at hinv
        rw [hinv]
        have hconcat :
            List.range' (st.iter - st.iter % cfg.nCritics)
                (st.iter % cfg.nCritics + 1) =
              List.range' (st.iter - st.iter % cfg.nCritics)
                  (st.iter % cfg.nCritics) ++
                [st.iter - st.iter % cfg.nCritics + st.iter % cfg.nCritics] :=
          List.range'_1_concat _ _
        have hlast : st.iter - st.iter % cfg.nCritics + st.iter % cfg.nCritics =
            st.iter := by omega
        rw [hlast] at hconcat
        rw [hconcat, List.map_append]
        rfl
    · rw [herr] at hok
      exact absurd hok (by simp)

theorem batchLoop_window (cfg : TrainCfg) (hn : 0 < cfg.nCritics) :
    ∀ (k : ℕ) (st : TState), BuffInv cfg st →
      (∀ i g a, Eff.trainG i g a ∈ (batchLoop cfg st k).1 →
        (i + 1) % cfg.nCritics = 0 ∧
        a = ((List.range' (i + 1 - cfg.nCritics) cfg.nCritics).map
              cfg.dLoss).sum / (cfg.nCritics : ℚ)) ∧
      (∀ st', (batchLoop cfg st k).2 = .ok st' → BuffInv cfg st') := by
  intro k
  induction k with
  | zero =>
    intro st hinv
    constructor
    · intro i g a hmem
      exact absurd hmem (by simp [batchLoop])
    · intro st' h
      have h' : st = st' := by
        unfold batchLoop at h
        exact Except.ok.inj h
      subst h'
      exact hinv
  | succ k ih =>
    intro st hinv
    obtain ⟨hstepwin, hstepinv⟩ := batchStep_window cfg st hn hinv
    rcases hres : (batchStep cfg st).2 with e | st1
    · rw [batchLoop_succ_err cfg st e k hres]
      exact ⟨hstepwin, fun st' h => absurd h (by simp)⟩
    · have hinv1 : BuffInv cfg st1 := hstepinv st1 hres
      obtain ⟨ihwin, ihinv⟩ := ih st1 hinv1
      rw [batchLoop_succ_ok cfg st st1 k hres]
      constructor
      · intro i g a hmem
        dsimp only at hmem
        rw [List.mem_append] at hmem
        rcases hmem with hmem | hmem
        · exact hstepwin i g a hmem
        · exact ihwin i g a hmem
      · intro st' h
        dsimp only at h
        exact ihinv st' h

theorem fadeIn_ok_of_ne_one (epoch epochs : ℕ) (h : epochs ≠ 1) :
    fadeIn epoch epochs = .ok ((epoch : ℚ) / ((epochs : ℚ) - 1)) := by
  unfold fadeIn
  rw [if_neg (by omega)]

/-- Complete case analysis of one epoch body (train.py lines 184-225), under
the hypotheses that the fade-in division (line 187) and the checkpoint
modulus (line 222) do not raise. -/
theorem epochStep_cases (cfg : TrainCfg) (epoch : ℕ) (st : TState)
    (hE : cfg.epochs ≠ 1) (hc : 0 < cfg.checkpoint) :
    (∃ e, (batchLoop cfg st cfg.batches).2 = .error e ∧
       epochStep cfg epoch st = ((batchLoop cfg st cfg.batches).1, .error e)) ∨
    (∃ st' e, (batchLoop cfg st cfg.batches).2 = .ok st' ∧
       epoch % cfg.checkpoint = 0 ∧
       showImages cfg epoch true = .error e ∧
       epochStep cfg epoch st = ((batchLoop cfg st cfg.batches).1, .error e)) ∨
    (∃ st', (batchLoop cfg st cfg.batches).2 = .ok st' ∧
       epoch % cfg.checkpoint = 0 ∧
       showImages cfg epoch true =
         .ok [.saveFig epoch (figPath cfg.outputDir epoch), .showFig epoch] ∧
       epochStep cfg epoch st = ((batchLoop cfg st cfg.batches).1 ++
         [.saveFig epoch (figPath cfg.outputDir epoch), .showFig epoch,
          .printLosses epoch st'.lastD st'.lastG], .ok st')) ∨
    (∃ st', (batchLoop cfg st cfg.batches).2 = .ok st' ∧
       epoch % cfg.checkpoint ≠ 0 ∧
       epochStep cfg epoch st = ((batchLoop cfg st cfg.batches).1, .ok st')) := by
  have hpc : pymod epoch cfg.checkpoint = .ok (epoch % cfg.checkpoint) := by
    unfold pymod
    rw [if_neg (by omega)]
  have hfi := fadeIn_ok_of_ne_one epoch cfg.epochs hE
  rcases hbl : batchLoop cfg st cfg.batches with ⟨blTr, blR⟩
  rcases blR with e | st'
  · left
    refine ⟨e, rfl, ?_⟩
    unfold epochStep
    rw [hfi]
    dsimp only
    rw [hbl]
  · by_cases hck : epoch % cfg.checkpoint = 0
    · rcases hs : showImages cfg epoch true with e | l
      · right; left
        refine ⟨st', e, rfl, hck, rfl, ?_⟩
        unfold epochStep
        rw [hfi]
        dsimp only
        rw [hbl]
        dsimp only
        rw [hpc]
        dsimp only
        rw [if_pos hck, hs]
      · rcases showImages_ok_cases cfg epoch true l hs with ⟨_, hl⟩ | ⟨hfalse, _⟩
        · subst hl
          right; right; left
          refine ⟨st', rfl, hck, rfl, ?_⟩
          unfold epochStep
          rw [hfi]
          dsimp only
          rw [hbl]
          dsimp only
          rw [hpc]
          dsimp only
          rw [if_pos hck, hs]
          dsimp only
          rw [List.append_assoc]
          rfl
        · exact absurd hfalse (by simp)
    · right; right; right
      refine ⟨st', rfl, hck, ?_⟩
      unfold epochStep
      rw [hfi]
      dsimp only
      rw [hbl]
      dsimp only
      rw [hpc]
      dsimp only
      rw [if_neg hck]

theorem epochLoop_succ_ok (cfg : TrainCfg) (epoch : ℕ) (st st1 : TState) (k : ℕ)
    (h : (epochStep cfg epoch st).2 = .ok st1) :
    epochLoop cfg epoch st (k + 1) =
      ((epochStep cfg epoch st).1 ++ (epochLoop cfg (epoch + 1) st1 k).1,
        (epochLoop cfg (epoch + 1) st1 k).2) := by
  rcases hes : epochStep cfg epoch st with ⟨effs, r⟩
  rw [hes] at h
  dsimp at h
  subst h
  rcases hel : epochLoop cfg (epoch + 1) st1 k with ⟨tr, r'⟩
  unfold epochLoop
  rw [hes]
  dsimp only
  rw [hel]

theorem epochLoop_succ_err (cfg : TrainCfg) (epoch : ℕ) (st : TState) (e : PyErr)
    (k : ℕ) (h : (epochStep cfg epoch st).2 = .error e) :
    epochLoop cfg epoch st (k + 1) = ((epochStep cfg epoch st).1, .error e) := by
  rcases hes : epochStep cfg epoch st with ⟨effs, r⟩
  rw [hes] at h
  dsimp at h
  subst h
  unfold epochLoop
  rw [hes]

theorem epochStep_fade_err (cfg : TrainCfg) (epoch : ℕ) (st : TState)
    (h1 : cfg.epochs = 1) :
    epochStep cfg epoch st = ([], .error .zeroDivisionError) := by
  have hf : fadeIn epoch cfg.epochs = .error .zeroDivisionError := by
    rw [h1]
    rfl
  unfold epochStep
  rw [hf]

theorem epochStep_ck_err (cfg : TrainCfg) (epoch : ℕ) (st st' : TState)
    (hE : cfg.epochs ≠ 1) (hc0 : cfg.checkpoint = 0)
    (h : (batchLoop cfg st cfg.batches).2 = .ok st') :
    epochStep cfg epoch st =
      ((batchLoop cfg st cfg.batches).1, .error .zeroDivisionError) := by
  have hpc : pymod epoch cfg.checkpoint = .error .zeroDivisionError := by
    unfold pymod
    rw [if_pos hc0]
  rcases hbl : batchLoop cfg st cfg.batches with ⟨blTr, blR⟩
  rw [hbl] at h
  dsimp at h
  subst h
  unfold epochStep
  rw [fadeIn_ok_of_ne_one epoch cfg.epochs hE]
  dsimp only
  rw [hbl]
  dsimp only
  rw [hpc]

/-- Trace characterization of the epoch loop under the hypotheses that no
`ZeroDivisionError` arises: the D iterations recorded are an initial run of
consecutive global iteration indices, G fires exactly on the claimed ones,
and a normally-returning loop processes `k * batches` batches. -/
theorem epochLoop_trace (cfg : TrainCfg) (hn : 0 < cfg.nCritics)
    (hE : cfg.epochs ≠ 1) (hc : 0 < cfg.checkpoint) :
    ∀ (k epoch : ℕ) (st : TState),
      ∃ m,
        dIters (epochLoop cfg epoch st k).1 = List.range' st.iter m ∧
        gIters (epochLoop cfg epoch st k).1 =
          (List.range' st.iter m).filter
            (fun i => decide ((i + 1) % cfg.nCritics = 0)) ∧
        (∀ st', (epochLoop cfg epoch st k).2 = .ok st' →
          m = k * cfg.batches ∧ st'.iter = st.iter + k * cfg.batches) := by
  intro k
  induction k with
  | zero =>
    intro epoch st
    refine ⟨0, rfl, rfl, ?_⟩
    intro st' h
    have h' : st = st' := by
      unfold epochLoop at h
      exact Except.ok.inj h
    subst h'
    exact ⟨by omega, by omega⟩
  | succ k ih =>
    intro epoch st
    obtain ⟨mb, hmb, hdb, hgb, hokb⟩ := batchLoop_trace cfg hn cfg.batches st
    rcases epochStep_cases cfg epoch st hE hc with
      ⟨e, hble, hesE⟩ | ⟨st', e, hblo, hck, hshow, hesE⟩ |
      ⟨st', hblo, hck, hshow, hesE⟩ | ⟨st', hblo, hck, hesE⟩
    · refine ⟨mb, ?_, ?_, ?_⟩
      · rw [epochLoop_succ_err cfg epoch st e k (by rw [hesE]), hesE, hdb]
      · rw [epochLoop_succ_err cfg epoch st e k (by rw [hesE]), hesE, hgb]
      · intro st' h
        rw [epochLoop_succ_err cfg epoch st e k (by rw [hesE])] at h
        exact absurd h (by simp)
    · refine ⟨mb, ?_, ?_, ?_⟩
      · rw [epochLoop_succ_err cfg epoch st e k (by rw [hesE]), hesE, hdb]
      · rw [epochLoop_succ_err cfg epoch st e k (by rw [hesE]), hesE, hgb]
      · intro st'' h
        rw [epochLoop_succ_err cfg epoch st e k (by rw [hesE])] at h
        exact absurd h (by simp)
    · obtain ⟨hmbk, hitb⟩ := hokb st' hblo
      subst hmbk
      obtain ⟨m, hd, hg, hok'⟩ := ih (epoch + 1) st'
      rw [epochLoop_succ_ok cfg epoch st st' k (by rw [hesE])]
      dsimp only
      rw [hesE]
      dsimp only
      refine ⟨cfg.batches + m, ?_, ?_, ?_⟩
      · rw [dIters_append, dIters_append, hdb, hd, hitb]
        have : dIters [Eff.saveFig epoch (figPath cfg.outputDir epoch),
            Eff.showFig epoch, Eff.printLosses epoch st'.lastD st'.lastG] =
            ([] : List ℕ) := rfl
        rw [this, List.append_nil, List.range'_append_1,
          Nat.add_comm m cfg.batches]
      · rw [gIters_append, gIters_append, hgb, hg, hitb]
        have : gIters [Eff.saveFig epoch (figPath cfg.outputDir epoch),
            Eff.showFig epoch, Eff.printLosses epoch st'.lastD st'.lastG] =
            ([] : List ℕ) := rfl
        rw [this, List.append_nil, ← List.filter_append, List.range'_append_1,
          Nat.add_comm m cfg.batches]
      · intro st'' h
        obtain ⟨hmk, hit⟩ := hok' st'' h
        constructor
        · rw [hmk]
          ring
        · rw [hit, hitb]
          ring
    · obtain ⟨hmbk, hitb⟩ := hokb st' hblo
      subst hmbk
      obtain ⟨m, hd, hg, hok'⟩ := ih (epoch + 1) st'
      rw [epochLoop_succ_ok cfg epoch st st' k (by rw [hesE])]
      dsimp only
      rw [hesE]
      dsimp only
      refine ⟨cfg.batches + m, ?_, ?_, ?_⟩
      · rw [dIters_append, hdb, hd, hitb, List.range'_append_1,
          Nat.add_comm m cfg.batches]
      · rw [gIters_append, hgb, hg, hitb, ← List.filter_append,
          List.range'_append_1, Nat.add_comm m cfg.batches]
      · intro st'' h
        obtain ⟨hmk, hit⟩ := hok' st'' h
        constructor
        · rw [hmk]
          ring
        · rw [hit, hitb]
          ring

theorem epochStep_bl_err (cfg : TrainCfg) (epoch : ℕ) (st : TState) (e : PyErr)
    (hE : cfg.epochs ≠ 1) (h : (batchLoop cfg st cfg.batches).2 = .error e) :
    epochStep cfg epoch st = ((batchLoop cfg st cfg.batches).1, .error e) := by
  rcases hbl : batchLoop cfg st cfg.batches with ⟨tr, r⟩
  rw [hbl] at h
  dsimp at h
  subst h
  unfold epochStep
  rw [fadeIn_ok_of_ne_one epoch cfg.epochs hE]
  dsimp only
  rw [hbl]

theorem trainRun_of_ok (cfg : TrainCfg) (st : TState)
    (h : (epochLoop cfg 0 ⟨0, [], 0, 0⟩ cfg.epochs).2 = .ok st) :
    trainRun cfg =
      ((epochLoop cfg 0 ⟨0, [], 0, 0⟩ cfg.epochs).1 ++
        [Eff.saveModel (ospJoin (ospJoin cfg.outputDir "Model") "G"),
         Eff.saveModel (ospJoin (ospJoin cfg.outputDir "Model") "D")],
       .ok st) := by
  rcases hel : epochLoop cfg 0 ⟨0, [], 0, 0⟩ cfg.epochs with ⟨tr, r⟩
  rw [hel] at h
  dsimp at h
  subst h
  simp only [trainRun]
  rw [hel]

theorem trainRun_of_err (cfg : TrainCfg) (e : PyErr)
    (h : (epochLoop cfg 0 ⟨0, [], 0, 0⟩ cfg.epochs).2 = .error e) :
    trainRun cfg = ((epochLoop cfg 0 ⟨0, [], 0, 0⟩ cfg.epochs).1, .error e) := by
  rcases hel : epochLoop cfg 0 ⟨0, [], 0, 0⟩ cfg.epochs with ⟨tr, r⟩
  rw [hel] at h
  dsimp at h
  subst h
  simp only [trainRun]
  rw [hel]

/-- C3: in `Trainer.train` the discriminator is updated exactly once for
every batch drawn from the dataset — the iteration indices of the `trainD`
effects in the emitted trace are exactly `0, 1, ..., m-1` for `m` the number
of batches processed — and the generator is updated exactly once on those
iterations where `(iter + 1) % n_critics == 0`; in a run that returns
normally, `m` is the total number of batches `epochs * batches`, so D is
trained `n_critics` times as often as G. -/
theorem train_alternation_schedule (cfg : TrainCfg) (hn : 0 < cfg.nCritics) :
    ∃ m : ℕ,
      dIters (trainRun cfg).1 = List.range m ∧
      gIters (trainRun cfg).1 =
        (List.range m).filter (fun i => decide ((i + 1) % cfg.nCritics = 0)) ∧
      (∀ st, (trainRun cfg).2 = .ok st → m = cfg.epochs * cfg.batches) := by
  have hsave : ∀ p1 p2 : String,
      dIters [Eff.saveModel p1, Eff.saveModel p2] = [] ∧
      gIters [Eff.saveModel p1, Eff.saveModel p2] = [] := fun p1 p2 => ⟨rfl, rfl⟩
  by_cases hE : cfg.epochs = 1
  · rw [trainRun_epochs_one cfg hE]
    refine ⟨0, rfl, rfl, ?_⟩
    intro st h
    exact absurd h (by simp)
  · by_cases hc : cfg.checkpoint = 0
    · rcases hep : cfg.epochs with _ | ep
      · have hel : epochLoop cfg 0 ⟨0, [], 0, 0⟩ cfg.epochs =
            ([], .ok ⟨0, [], 0, 0⟩) := by
          rw [hep]
          rfl
        rw [trainRun_of_ok cfg ⟨0, [], 0, 0⟩ (by rw [hel])]
        rw [hel]
        refine ⟨0, rfl, rfl, ?_⟩
        intro st _
        omega
      · obtain ⟨mb, hmb, hdb, hgb, _⟩ :=
          batchLoop_trace cfg hn cfg.batches ⟨0, [], 0, 0⟩
        have hfirst : ∃ e, epochStep cfg 0 ⟨0, [], 0, 0⟩ =
            ((batchLoop cfg ⟨0, [], 0, 0⟩ cfg.batches).1, .error e) := by
          rcases hblr : (batchLoop cfg ⟨0, [], 0, 0⟩ cfg.batches).2 with e | st'
          · exact ⟨e, epochStep_bl_err cfg 0 ⟨0, [], 0, 0⟩ e hE hblr⟩
          · exact ⟨.zeroDivisionError,
              epochStep_ck_err cfg 0 ⟨0, [], 0, 0⟩ st' hE hc hblr⟩
        obtain ⟨e, hes⟩ := hfirst
        have hel : epochLoop cfg 0 ⟨0, [], 0, 0⟩ cfg.epochs =
            ((batchLoop cfg ⟨0, [], 0, 0⟩ cfg.batches).1, .error e) := by
          rw [hep]
          rw [epochLoop_succ_err cfg 0 ⟨0, [], 0, 0⟩ e ep (by rw [hes]), hes]
        rw [trainRun_of_err cfg e (by rw [hel])]
        rw [hel]
        refine ⟨mb, ?_, ?_, ?_⟩
        · rw [hdb]
          rw [List.range_eq_range']
        · rw [hgb]
          rw [List.range_eq_range']
        · intro st h
          exact absurd h (by simp)
    · obtain ⟨m, hd, hg, hok⟩ :=
        epochLoop_trace cfg hn hE (by omega) cfg.epochs 0 ⟨0, [], 0, 0⟩
      rcases helr : (epochLoop cfg 0 ⟨0, [], 0, 0⟩ cfg.epochs).2 with e | st
      · rw [trainRun_of_err cfg e helr]
        refine ⟨m, ?_, ?_, ?_⟩
        · rw [hd, List.range_eq_range']
        · rw [hg, List.range_eq_range']
        · intro st h
          exact absurd h (by simp)
      · rw [trainRun_of_ok cfg st helr]
        refine ⟨m, ?_, ?_, ?_⟩
        · dsimp only
          rw [dIters_append, hd, (hsave _ _).1, List.append_nil,
            List.range_eq_range']
        · dsimp only
          rw [gIters_append, hg, (hsave _ _).2, List.append_nil,
            List.range_eq_range']
        · intro st' _
          exact (hok st helr).1

/-- Witness for C3, at a concrete configuration with `n_critics = 2`,
3 epochs and 5 batches per epoch. -/
theorem train_alternation_schedule_witness :
    0 < cfgC3.nCritics ∧
    ∃ m : ℕ,
      dIters (trainRun cfgC3).1 = List.range m ∧
      gIters (trainRun cfgC3).1 =
        (List.range m).filter (fun i => decide ((i + 1) % cfgC3.nCritics = 0)) ∧
      (∀ st, (trainRun cfgC3).2 = .ok st → m = cfgC3.epochs * cfgC3.batches) :=
  ⟨by decide, train_alternation_schedule cfgC3 (by decide)⟩

theorem epochStep_window (cfg : TrainCfg) (hn : 0 < cfg.nCritics)
    (epoch : ℕ) (st : TState) (hinv : BuffInv cfg st) :
    (∀ i g a, Eff.trainG i g a ∈ (epochStep cfg epoch st).1 →
      (i + 1) % cfg.nCritics = 0 ∧
      a = ((List.range' (i + 1 - cfg.nCritics) cfg.nCritics).map
            cfg.dLoss).sum / (cfg.nCritics : ℚ)) ∧
    (∀ st', (epochStep cfg epoch st).2 = .ok st' → BuffInv cfg st') := by
  obtain ⟨hblwin, hblinv⟩ := batchLoop_window cfg hn cfg.batches st hinv
  by_cases hE : cfg.epochs = 1
  · rw [epochStep_fade_err cfg epoch st hE]
    exact ⟨fun i g a h => absurd h (by simp),
           fun st' h => absurd h (by simp)⟩
  · by_cases hc : cfg.checkpoint = 0
    · rcases hblr : (batchLoop cfg st cfg.batches).2 with e | st'
      · rw [epochStep_bl_err cfg epoch st e hE hblr]
        exact ⟨hblwin, fun st' h => absurd h (by simp)⟩
      · rw [epochStep_ck_err cfg epoch st st' hE hc hblr]
        exact ⟨hblwin, fun st'' h => absurd h (by simp)⟩
    · rcases epochStep_cases cfg epoch st hE (by omega) with
        ⟨e, hble, hesE⟩ | ⟨st', e, hblo, hck, hshow, hesE⟩ |
        ⟨st', hblo, hck, hshow, hesE⟩ | ⟨st', hblo, hck, hesE⟩
      · rw [hesE]
        exact ⟨hblwin, fun st' h => absurd h (by simp)⟩
      · rw [hesE]
        exact ⟨hblwin, fun st'' h => absurd h (by simp)⟩
      · rw [hesE]
        constructor
        · intro i g a hmem
          dsimp only at hmem
          rw [List.mem_append] at hmem
          rcases hmem with hmem | hmem
          · exact hblwin i g a hmem
          · exact absurd hmem (by simp)
        · intro st'' h
          dsimp only at h
          have h' : st' = st'' := Except.ok.inj h
          subst h'
          exact hblinv st' hblo
      · rw [hesE]
        constructor
        · exact hblwin
        · intro st'' h
          dsimp only at h
          have h' : st' = st'' := Except.ok.inj h
          subst h'
          exact hblinv st' hblo

theorem epochLoop_window (cfg : TrainCfg) (hn : 0 < cfg.nCritics) :
    ∀ (k epoch : ℕ) (st : TState), BuffInv cfg st →
      (∀ i g a, Eff.trainG i g a ∈ (epochLoop cfg epoch st k).1 →
        (i + 1) % cfg.nCritics = 0 ∧
        a = ((List.range' (i + 1 - cfg.nCritics) cfg.nCritics).map
              cfg.dLoss).sum / (cfg.nCritics : ℚ)) ∧
      (∀ st', (epochLoop cfg epoch st k).2 = .ok st' → BuffInv cfg st') := by
  intro k
  induction k with
  | zero =>
    intro epoch st hinv
    constructor
    · intro i g a h
      exact absurd h (by simp [epochLoop])
    · intro st' h
      have h' : st = st' := by
        unfold epochLoop at h
        exact Except.ok.inj h
      subst h'
      exact hinv
  | succ k ih =>
    intro epoch st hinv
    obtain ⟨heswin, hesinv⟩ := epochStep_window cfg hn epoch st hinv
    rcases hres : (epochStep cfg epoch st).2 with e | st1
    · rw [epochLoop_succ_err cfg epoch st e k hres]
      exact ⟨heswin, fun st' h => absurd h (by simp)⟩
    · have hinv1 : BuffInv cfg st1 := hesinv st1 hres
      obtain ⟨ihwin, ihinv⟩ := ih (epoch + 1) st1 hinv1
      rw [epochLoop_succ_ok cfg epoch st st1 k hres]
      constructor
      · intro i g a hmem
        dsimp only at hmem
        rw [List.mem_append] at hmem
        rcases hmem with hmem | hmem
        · exact heswin i g a hmem
        · exact ihwin i g a hmem
      · intro st' h
        dsimp only at h
        exact ihinv st' h

/-- C5: (i) every time the generator is trained in `Trainer.train`, the
discriminator-loss value logged and retained as `last_d_training_loss`
(carried in the `trainG` effect) equals the arithmetic mean of the
`n_critics` per-batch discriminator losses accumulated in the buffer since
the previous generator update; (ii) the update step computes exactly
`sum(buffer) / len(buffer)` over the buffer extended by the current batch
loss (lines 195 and 202), stores it, and resets the buffer to empty
immediately afterwards (line 209). -/
theorem gen_update_logs_mean_and_resets_buffer (cfg : TrainCfg)
    (hn : 0 < cfg.nCritics) :
    (∀ i g a, Eff.trainG i g a ∈ (trainRun cfg).1 →
       (i + 1) % cfg.nCritics = 0 ∧
       a = ((List.range' (i + 1 - cfg.nCritics) cfg.nCritics).map
             cfg.dLoss).sum / (cfg.nCritics : ℚ)) ∧
    (∀ st st', (st.iter + 1) % cfg.nCritics = 0 →
       (batchStep cfg st).2 = .ok st' →
       st'.buff = [] ∧
       st'.lastD = (st.buff ++ [cfg.dLoss st.iter]).sum /
                     (((st.buff ++ [cfg.dLoss st.iter]).length : ℕ) : ℚ)) := by
  have hinv0 : BuffInv cfg ⟨0, [], 0, 0⟩ := by
    unfold BuffInv
    rw [Nat.zero_mod]
    rfl
  obtain ⟨helwin, _⟩ :=
    epochLoop_window cfg hn cfg.epochs 0 ⟨0, [], 0, 0⟩ hinv0
  constructor
  · intro i g a hmem
    rcases helr : (epochLoop cfg 0 ⟨0, [], 0, 0⟩ cfg.epochs).2 with e | stf
    · rw [trainRun_of_err cfg e helr] at hmem
      exact helwin i g a hmem
    · rw [trainRun_of_ok cfg stf helr] at hmem
      dsimp only at hmem
      rw [List.mem_append] at hmem
      rcases hmem with hmem | hmem
      · exact helwin i g a hmem
      · exact absurd hmem (by simp)
  · intro st st' hG hok
    obtain ⟨gEffs, postEffs, _, _, _, _, _, _, _, _, hres⟩ :=
      batchStep_cases cfg st hn
    rcases hres with ⟨st1, hok1, _, hifbuf⟩ | ⟨e, herr, _, _⟩
    · have h' : st1 = st' := by
        rw [hok1] at hok
        exact Except.ok.inj hok
      subst h'
      rw [if_pos hG] at hifbuf
      exact ⟨hifbuf.1, hifbuf.2.1⟩
    · rw [herr] at hok
      exact absurd hok (by simp)

/-- Witness for C5, at a concrete configuration with `n_critics = 2`. -/
theorem gen_update_logs_mean_and_resets_buffer_witness :
    0 < cfgC5.nCritics ∧
    ((∀ i g a, Eff.trainG i g a ∈ (trainRun cfgC5).1 →
       (i + 1) % cfgC5.nCritics = 0 ∧
       a = ((List.range' (i + 1 - cfgC5.nCritics) cfgC5.nCritics).map
             cfgC5.dLoss).sum / (cfgC5.nCritics : ℚ)) ∧
    (∀ st st', (st.iter + 1) % cfgC5.nCritics = 0 →
       (batchStep cfgC5 st).2 = .ok st' →
       st'.buff = [] ∧
       st'.lastD = (st.buff ++ [cfgC5.dLoss st.iter]).sum /
                     (((st.buff ++ [cfgC5.dLoss st.iter]).length : ℕ) : ℚ))) :=
  ⟨by decide, gen_update_logs_mean_and_resets_buffer cfgC5 (by decide)⟩

theorem batchLoop_noSave (cfg : TrainCfg) (hn : 0 < cfg.nCritics) :
    ∀ (k : ℕ) (st : TState),
      (∀ e p, Eff.saveFig e p ∉ (batchLoop cfg st k).1) ∧
      (∀ p, Eff.saveModel p ∉ (batchLoop cfg st k).1) := by
  intro k
  induction k with
  | zero =>
    intro st
    exact ⟨fun e p h => absurd h (by simp [batchLoop]),
           fun p h => absurd h (by simp [batchLoop])⟩
  | succ k ih =>
    intro st
    obtain ⟨gEffs, postEffs, htr, _, _, _, hnsf, hnsm, _, _, hres⟩ :=
      batchStep_cases cfg st hn
    have hstep : (∀ e p, Eff.saveFig e p ∉ (batchStep cfg st).1) ∧
        (∀ p, Eff.saveModel p ∉ (batchStep cfg st).1) := by
      rw [htr]
      constructor
      · intro e p h
        rw [List.mem_cons] at h
        rcases h with h | h
        · exact absurd h (by simp)
        · exact hnsf e p h
      · intro p h
        rw [List.mem_cons] at h
        rcases h with h | h
        · exact absurd h (by simp)
        · exact hnsm p h
    rcases hres2 : (batchStep cfg st).2 with e | st1
    · rw [batchLoop_succ_err cfg st e k hres2]
      exact hstep
    · rw [batchLoop_succ_ok cfg st st1 k hres2]
      obtain ⟨ihf, ihm⟩ := ih st1
      constructor
      · intro e p h
        dsimp only at h
        rw [List.mem_append] at h
        rcases h with h | h
        · exact hstep.1 e p h
        · exact ihf e p h
      · intro p h
        dsimp only at h
        rw [List.mem_append] at h
        rcases h with h | h
        · exact hstep.2 p h
        · exact ihm p h

theorem batchLoop_complete (cfg : TrainCfg) (hn : 0 < cfg.nCritics)
    (hshow : ∃ l, showImages cfg 0 false = .ok l) :
    ∀ (k : ℕ) (st : TState), ∃ st', (batchLoop cfg st k).2 = .ok st' := by
  intro k
  induction k with
  | zero =>
    intro st
    exact ⟨st, rfl⟩
  | succ k ih =>
    intro st
    obtain ⟨_, _, _, _, _, _, _, _, _, _, hres⟩ := batchStep_cases cfg st hn
    rcases hres with ⟨st1, hok, _, _⟩ | ⟨e, _, herr, _⟩
    · obtain ⟨st', h⟩ := ih st1
      rw [batchLoop_succ_ok cfg st st1 k hok]
      exact ⟨st', h⟩
    · obtain ⟨l, hl⟩ := hshow
      rw [hl] at herr
      exact absurd herr (by simp)

theorem batchLoop_res_cases (cfg : TrainCfg) (hn : 0 < cfg.nCritics) :
    ∀ (k : ℕ) (st : TState),
      (∃ st', (batchLoop cfg st k).2 = .ok st') ∨
      (∃ e, (batchLoop cfg st k).2 = .error e ∧
        showImages cfg 0 false = .error e) := by
  intro k
  induction k with
  | zero =>
    intro st
    exact Or.inl ⟨st, rfl⟩
  | succ k ih =>
    intro st
    obtain ⟨_, _, _, _, _, _, _, _, _, _, hres⟩ := batchStep_cases cfg st hn
    rcases hres with ⟨st1, hok, _, _⟩ | ⟨e, herr, hshow, _⟩
    · rcases ih st1 with ⟨st', h⟩ | ⟨e, h, hs⟩
      · rw [batchLoop_succ_ok cfg st st1 k hok]
        exact Or.inl ⟨st', h⟩
      · rw [batchLoop_succ_ok cfg st st1 k hok]
        exact Or.inr ⟨e, h, hs⟩
    · rw [batchLoop_succ_err cfg st e k herr]
      exact Or.inr ⟨e, rfl, hshow⟩

theorem showImagesReads_false_sub_true :
    ∀ a ∈ showImagesReads false, a ∈ showImagesReads true := by
  decide

theorem epochLoop_save_chars (cfg : TrainCfg) (hn : 0 < cfg.nCritics)
    (hE : cfg.epochs ≠ 1) (hc : 0 < cfg.checkpoint)
    (hA : ∀ a ∈ showImagesReads true, a ∈ cfg.attrs) :
    ∀ (k epoch : ℕ) (st : TState),
      (∃ st', (epochLoop cfg epoch st k).2 = .ok st') ∧
      (∀ e p, Eff.saveFig e p ∈ (epochLoop cfg epoch st k).1 ↔
        (epoch ≤ e ∧ e < epoch + k ∧ e % cfg.checkpoint = 0 ∧
         p = figPath cfg.outputDir e)) ∧
      (∀ p, Eff.saveModel p ∉ (epochLoop cfg epoch st k).1) := by
  have hshowF : ∃ l, showImages cfg 0 false = .ok l :=
    showImages_ok_of_attrs cfg 0 false
      (fun a ha => hA a (showImagesReads_false_sub_true a ha))
  intro k
  induction k with
  | zero =>
    intro epoch st
    refine ⟨⟨st, rfl⟩, ?_, ?_⟩
    · intro e p
      constructor
      · intro h
        exact absurd h (by simp [epochLoop])
      · intro ⟨h1, h2, _, _⟩
        omega
    · intro p h
      exact absurd h (by simp [epochLoop])
  | succ k ih =>
    intro epoch st
    obtain ⟨stb, hstb⟩ := batchLoop_complete cfg hn hshowF cfg.batches st
    obtain ⟨hbnsf, hbnsm⟩ := batchLoop_noSave cfg hn cfg.batches st
    rcases epochStep_cases cfg epoch st hE hc with
      ⟨e, hble, _⟩ | ⟨st', e, _, _, hshow, _⟩ |
      ⟨st', hblo, hck, hshow, hesE⟩ | ⟨st', hblo, hck, hesE⟩
    · rw [hstb] at hble
      exact absurd hble (by simp)
    · obtain ⟨l, hl⟩ := showImages_ok_of_attrs cfg epoch true hA
      rw [hl] at hshow
      exact absurd hshow (by simp)
    · obtain ⟨⟨stf, hstf⟩, ihiff, ihnsm⟩ := ih (epoch + 1) st'
      have hok : (epochStep cfg epoch st).2 = .ok st' := by
        rw [hesE]
      rw [epochLoop_succ_ok cfg epoch st st' k hok]
      refine ⟨⟨stf, hstf⟩, ?_, ?_⟩
      · intro e p
        dsimp only
        rw [List.mem_append, hesE]
        dsimp only
        rw [List.mem_append]
        constructor
        · intro h
          rcases h with (h | h) | h
          · exact absurd h (hbnsf e p)
          · rw [List.mem_cons, List.mem_cons, List.mem_cons] at h
            rcases h with h | h | h | h
            · have h1 : e = epoch := by
                injection h with h1 _
              have h2 : p = figPath cfg.outputDir epoch := by
                injection h with _ h2
              subst h1
              exact ⟨by omega, by omega, hck, h2⟩
            · exact absurd h (by simp)
            · exact absurd h (by simp)
            · exact absurd h (by simp)
          · obtain ⟨h1, h2, h3, h4⟩ := (ihiff e p).mp h
            exact ⟨by omega, by omega, h3, h4⟩
        · intro ⟨h1, h2, h3, h4⟩
          by_cases hcase : e = epoch
          · subst hcase
            subst h4
            left; right
            simp
          · right
            refine (ihiff e p).mpr ⟨by omega, by omega, h3, h4⟩
      · intro p h
        dsimp only at h
        rw [List.mem_append, hesE] at h
        dsimp only at h
        rw [List.mem_append] at h
        rcases h with (h | h) | h
        · exact hbnsm p h
        · rw [List.mem_cons, List.mem_cons, List.mem_cons] at h
          rcases h with h | h | h | h
          · exact absurd h (by simp)
          · exact absurd h (by simp)
          · exact absurd h (by simp)
          · exact absurd h (by simp)
        · exact ihnsm p h
    · obtain ⟨⟨stf, hstf⟩, ihiff, ihnsm⟩ := ih (epoch + 1) st'
      have hok : (epochStep cfg epoch st).2 = .ok st' := by
        rw [hesE]
      rw [epochLoop_succ_ok cfg epoch st st' k hok]
      refine ⟨⟨stf, hstf⟩, ?_, ?_⟩
      · intro e p
        dsimp only
        rw [List.mem_append, hesE]
        dsimp only
        constructor
        · intro h
          rcases h with h | h
          · exact absurd h (hbnsf e p)
          · obtain ⟨h1, h2, h3, h4⟩ := (ihiff e p).mp h
            exact ⟨by omega, by omega, h3, h4⟩
        · intro ⟨h1, h2, h3, h4⟩
          by_cases hcase : e = epoch
          · subst hcase
            exact absurd h3 hck
          · right
            exact (ihiff e p).mpr ⟨by omega, by omega, h3, h4⟩
      · intro p h
        dsimp only at h
        rw [List.mem_append, hesE] at h
        dsimp only at h
        rcases h with h | h
        · exact hbnsm p h
        · exact ihnsm p h

/-- C4: `Trainer.train` performs periodic visualization and checkpointing:
when every attribute `_show_images` reads is present on the trainer (so the
figure calls return normally), `n_critics` and `checkpoint` are positive and
`epochs ≠ 1` (so no `ZeroDivisionError` occurs), the run returns normally
with a trace in which a figure is saved at `figPath(output_dir, e)` exactly
on the epochs `e` with `e % checkpoint == 0` (lines 222-223 and 164-166),
and which ends with the generator and discriminator being saved to
`<output_dir>/Model/G` and `<output_dir>/Model/D` via `model.save`
(lines 228-232), and nowhere else. -/
theorem train_checkpoint_and_model_saving (cfg : TrainCfg)
    (hn : 0 < cfg.nCritics) (hc : 0 < cfg.checkpoint) (hE : cfg.epochs ≠ 1)
    (hA : ∀ a ∈ showImagesReads true, a ∈ cfg.attrs) :
    ∃ st tr,
      trainRun cfg =
        (tr ++ [Eff.saveModel (ospJoin (ospJoin cfg.outputDir "Model") "G"),
                Eff.saveModel (ospJoin (ospJoin cfg.outputDir "Model") "D")],
         .ok st) ∧
      (∀ e p, Eff.saveFig e p ∈ tr ↔
        (e < cfg.epochs ∧ e % cfg.checkpoint = 0 ∧
         p = figPath cfg.outputDir e)) ∧
      (∀ p, Eff.saveModel p ∉ tr) := by
  obtain ⟨⟨st, hst⟩, hiff, hnsm⟩ :=
    epochLoop_save_chars cfg hn hE hc hA cfg.epochs 0 ⟨0, [], 0, 0⟩
  refine ⟨st, (epochLoop cfg 0 ⟨0, [], 0, 0⟩ cfg.epochs).1,
    trainRun_of_ok cfg st hst, ?_, hnsm⟩
  intro e p
  rw [hiff e p]
  constructor
  · intro ⟨_, h2, h3, h4⟩
    exact ⟨by omega, h3, h4⟩
  · intro ⟨h1, h3, h4⟩
    exact ⟨by omega, by omega, h3, h4⟩

/-- C4 counterexample: on a trainer with the real attribute set (which lacks
`image_reso`), two epochs, one batch per epoch and `checkpoint = 1`, epoch 0
enters the checkpoint branch (`0 % checkpoint == 0`), yet the run saves no
figure and never writes the generator or discriminator models:
`_show_images` raises `AttributeError` first, so the claim as stated fails
on this input. -/
theorem real_trainer_saves_no_figures_or_models :
    (0 % cfgC4x.checkpoint = 0 ∧ 0 < cfgC4x.epochs) ∧
    trainRun cfgC4x =
      ([Eff.trainD 0 0], .error (.attributeError "image_reso")) ∧
    (∀ e p, Eff.saveFig e p ∉ (trainRun cfgC4x).1) ∧
    (∀ p, Eff.saveModel p ∉ (trainRun cfgC4x).1) := by
  refine ⟨⟨rfl, by decide⟩, rfl, ?_, ?_⟩
  · intro e p h
    rw [show (trainRun cfgC4x).1 = [Eff.trainD 0 0] from rfl] at h
    simp at h
  · intro p h
    rw [show (trainRun cfgC4x).1 = [Eff.trainD 0 0] from rfl] at h
    simp at h

/-- Witness for C4, at a concrete configuration with 3 epochs, 2 batches per
epoch and `checkpoint = 2` (figures saved at epochs 0 and 2). -/
theorem train_checkpoint_and_model_saving_witness :
    (0 < cfgC4.nCritics ∧ 0 < cfgC4.checkpoint ∧ cfgC4.epochs ≠ 1 ∧
      (∀ a ∈ showImagesReads true, a ∈ cfgC4.attrs)) ∧
    (∃ st tr,
      trainRun cfgC4 =
        (tr ++ [Eff.saveModel (ospJoin (ospJoin cfgC4.outputDir "Model") "G"),
                Eff.saveModel (ospJoin (ospJoin cfgC4.outputDir "Model") "D")],
         .ok st) ∧
      (∀ e p, Eff.saveFig e p ∈ tr ↔
        (e < cfgC4.epochs ∧ e % cfgC4.checkpoint = 0 ∧
         p = figPath cfgC4.outputDir e)) ∧
      (∀ p, Eff.saveModel p ∉ tr)) :=
  ⟨⟨by decide, by decide, by decide, by decide⟩,
   train_checkpoint_and_model_saving cfgC4 (by decide) (by decide) (by decide)
     (by decide)⟩

/-- C8: `_show_images` reads `self.image_reso` (train.py line 154), an
attribute that no `Trainer` method ever assigns — the constructor assigns
`image_res` (line 43) — so every call to `_show_images` raises
`AttributeError`; consequently, for every trainer with the real attribute
set, at least 2 epochs (so the fade-in division does not raise first), and
positive `n_critics` and `checkpoint`, `Trainer.train` terminates with this
`AttributeError` during its first epoch — at iteration 100 if the dataset
yields at least 100 batches, otherwise at the epoch-end checkpoint branch,
which epoch 0 always enters since `0 % checkpoint == 0` — and the
model-saving code at the end of `train` is never reached. -/
theorem show_images_attribute_error_aborts_train (cfg : TrainCfg)
    (hattrs : cfg.attrs = trainerSelfAssignedAttrs)
    (hn : 0 < cfg.nCritics) (hc : 0 < cfg.checkpoint) (he : 2 ≤ cfg.epochs) :
    (∀ epoch save, showImages cfg epoch save =
       .error (.attributeError "image_reso")) ∧
    "image_reso" ∉ trainerSelfAssignedAttrs ∧
    "image_res" ∈ trainerSelfAssignedAttrs ∧
    (trainRun cfg).2 = .error (.attributeError "image_reso") ∧
    (∀ p, Eff.saveModel p ∉ (trainRun cfg).1) := by
  have hshow : ∀ epoch save, showImages cfg epoch save =
      .error (.attributeError "image_reso") :=
    fun epoch save => showImages_err_reso cfg epoch save hattrs
  have hE : cfg.epochs ≠ 1 := by omega
  obtain ⟨hbnsf, hbnsm⟩ := batchLoop_noSave cfg hn cfg.batches ⟨0, [], 0, 0⟩
  have hfirst : (epochStep cfg 0 ⟨0, [], 0, 0⟩).1 =
      (batchLoop cfg ⟨0, [], 0, 0⟩ cfg.batches).1 ∧
      (epochStep cfg 0 ⟨0, [], 0, 0⟩).2 =
        .error (.attributeError "image_reso") := by
    rcases batchLoop_res_cases cfg hn cfg.batches ⟨0, [], 0, 0⟩ with
      ⟨st', hok⟩ | ⟨e, herr, hse⟩
    · rcases epochStep_cases cfg 0 ⟨0, [], 0, 0⟩ hE hc with
        ⟨e, hble, _⟩ | ⟨st'', e, _, _, hshowe, hesE⟩ |
        ⟨st'', _, _, hshowe, _⟩ | ⟨st'', _, hck, _⟩
      · rw [hok] at hble
        exact absurd hble (by simp)
      · have he' : e = .attributeError "image_reso" := by
          rw [hshow 0 true] at hshowe
          exact (Except.error.inj hshowe).symm
        subst he'
        rw [hesE]
        exact ⟨rfl, rfl⟩
      · rw [hshow 0 true] at hshowe
        exact absurd hshowe (by simp)
      · exact absurd (Nat.zero_mod cfg.checkpoint) hck
    · have he' : e = .attributeError "image_reso" := by
        rw [hshow 0 false] at hse
        exact (Except.error.inj hse).symm
      subst he'
      rw [epochStep_bl_err cfg 0 ⟨0, [], 0, 0⟩ _ hE herr]
      exact ⟨rfl, rfl⟩
  obtain ⟨hk, hkk⟩ : ∃ k, cfg.epochs = k + 1 := ⟨cfg.epochs - 1, by omega⟩
  have hel : epochLoop cfg 0 ⟨0, [], 0, 0⟩ cfg.epochs =
      ((epochStep cfg 0 ⟨0, [], 0, 0⟩).1,
        .error (.attributeError "image_reso")) := by
    rw [hkk]
    exact epochLoop_succ_err cfg 0 ⟨0, [], 0, 0⟩ _ hk hfirst.2
  have htr : trainRun cfg =
      ((epochStep cfg 0 ⟨0, [], 0, 0⟩).1,
        .error (.attributeError "image_reso")) := by
    rw [trainRun_of_err cfg _ (by rw [hel]), hel]
  refine ⟨hshow, by decide, by decide, ?_, ?_⟩
  · rw [htr]
  · intro p h
    rw [htr, hfirst.1] at h
    exact hbnsm p h

/-- Witness for C8, at a concrete two-epoch configuration whose attribute
environment is exactly the set of attributes the `Trainer` constructor
assigns. -/
theorem show_images_attribute_error_aborts_train_witness :
    (cfgC8.attrs = trainerSelfAssignedAttrs ∧ 0 < cfgC8.nCritics ∧
      0 < cfgC8.checkpoint ∧ 2 ≤ cfgC8.epochs) ∧
    ((∀ epoch save, showImages cfgC8 epoch save =
       .error (.attributeError "image_reso")) ∧
    "image_reso" ∉ trainerSelfAssignedAttrs ∧
    "image_res" ∈ trainerSelfAssignedAttrs ∧
    (trainRun cfgC8).2 = .error (.attributeError "image_reso") ∧
    (∀ p, Eff.saveModel p ∉ (trainRun cfgC8).1)) :=
  ⟨⟨rfl, by decide, by decide, by decide⟩,
   show_images_attribute_error_aborts_train cfgC8 rfl (by decide) (by decide)
     (by decide)⟩

/-- C7: no statement anywhere in the four source files is a `try` statement,
so no exception is caught, retried, recovered from, or converted into a
return value; accordingly, in the embedded semantics of `Trainer.train`, an
exception raised in a batch step, in an epoch body, or anywhere in the epoch
loop surfaces unchanged as the error of the enclosing loop and of `train`
itself. -/
theorem no_exception_handling_in_sources :
    (containsTryList styleganTrainStmts = false ∧
     containsTryList unet3dModelStmts = false ∧
     containsTryList isicModelStmts = false ∧
     containsTryList vqvaeStmts = false) ∧
    (∀ (cfg : TrainCfg) (st : TState) (k : ℕ) (e : PyErr),
       (batchStep cfg st).2 = .error e →
       (batchLoop cfg st (k + 1)).2 = .error e) ∧
    (∀ (cfg : TrainCfg) (epoch : ℕ) (st : TState) (k : ℕ) (e : PyErr),
       (epochStep cfg epoch st).2 = .error e →
       (epochLoop cfg epoch st (k + 1)).2 = .error e) ∧
    (∀ (cfg : TrainCfg) (e : PyErr),
       (epochLoop cfg 0 ⟨0, [], 0, 0⟩ cfg.epochs).2 = .error e →
       (trainRun cfg).2 = .error e) := by
  refine ⟨⟨rfl, rfl, rfl, rfl⟩, ?_, ?_, ?_⟩
  · intro cfg st k e h
    rw [batchLoop_succ_err cfg st e k h]
  · intro cfg epoch st k e h
    rw [epochLoop_succ_err cfg epoch st e k h]
  · intro cfg e h
    rw [trainRun_of_err cfg e h]

end PatternFlow
